import Mathlib

/-!
Verification development for the nebula-go session layer (`session.go`).

The Go source is embedded shallowly:

* machine integers (`int`, `int64`) become `Int`;
* Go `float64`/`float32` host values are modeled as exact rationals (`ℚ`);
  the Go conversion `int64(v)` is truncation toward zero, modeled by
  `Int.tdiv` on numerator and denominator;
* fallible calls return pairs with an `Option GoError` component, mirroring
  Go's `(value, error)` convention; a `nil` Go pointer/interface is `none`;
* the external transport and pools are oracles: streams of outcomes indexed
  by the number of calls made so far;
* the unbounded `for` loops of the source are given explicit fuel; a result
  of `none` means the loop is still running after `fuel` iterations.
-/

set_option maxHeartbeats 1000000

namespace NebulaGo

/-- Go `error` values as the session layer distinguishes them: a
`thrift.TransportException` (matched by the `err.(thrift.TransportException)`
type assertions in `session.go`) or any other error created by
`fmt.Errorf`, carrying its message. -/
inductive GoError where
  | transportException (msg : String)
  | errorf (msg : String)
deriving DecidableEq, Repr

/-- Result of the Go type assertion `_, ok := err.(thrift.TransportException)`;
false on a nil error. -/
def isTransportOpt : Option GoError → Bool
  | some (.transportException _) => true
  | _ => false

/-- The error codes of `nebula.ErrorCode` that `session.go` inspects; all
other codes are collapsed into `otherCode`. -/
inductive ErrorCode where
  | SUCCEEDED
  | E_SESSION_INVALID
  | E_SESSION_TIMEOUT
  | otherCode (n : Int)
deriving DecidableEq, Repr

/-- The part of `graph.ExecutionResponse` that `session.go` reads: the error
code, plus the error message (standing in for the rest of the payload). -/
structure ExecutionResponse where
  errorCode : ErrorCode
  errorMsg : String
deriving DecidableEq, Repr

/-- Go `func IsError(resp *graph.ExecutionResponse) bool`. -/
def IsError (resp : ExecutionResponse) : Bool :=
  !(resp.errorCode == ErrorCode.SUCCEEDED)

/-- Go `func IsServerSessionError(resp *graph.ExecutionResponse) bool`:
`resp != nil && (code == E_SESSION_INVALID || code == E_SESSION_TIMEOUT)`. -/
def IsServerSessionError : Option ExecutionResponse → Bool
  | some resp =>
      resp.errorCode == ErrorCode.E_SESSION_INVALID ||
      resp.errorCode == ErrorCode.E_SESSION_TIMEOUT
  | none => false

/-- Go `func IsQueryOk(err error, resp *graph.ExecutionResponse) bool`:
`err == nil && !IsServerSessionError(resp)`. -/
def IsQueryOk (err : Option GoError) (resp : Option ExecutionResponse) : Bool :=
  err.isNone && !IsServerSessionError resp

/-- Go `nebula.NullType`; only the `__NULL__` variant is used by the codec. -/
inductive NullType where
  | nullValue
deriving DecidableEq, Repr

/-- Go `nebula.Date`. -/
structure NDate where
  year : Int
  month : Int
  day : Int
deriving DecidableEq, Repr

/-- Go `nebula.Time`. -/
structure NTime where
  hour : Int
  minute : Int
  sec : Int
  microsec : Int
deriving DecidableEq, Repr

/-- Go `nebula.DateTime`. -/
structure NDateTime where
  year : Int
  month : Int
  day : Int
  hour : Int
  minute : Int
  sec : Int
  microsec : Int
deriving DecidableEq, Repr

/-- Go `nebula.Duration`. -/
structure NDuration where
  seconds : Int
  microseconds : Int
  months : Int
deriving DecidableEq, Repr

/-- Go `nebula.Geography`, an opaque geospatial union; the codec only passes
it through, so its payload is modeled as an opaque string. -/
structure NGeography where
  wkb : String
deriving DecidableEq, Repr

/-- Go `nebula.Value`, the thrift tagged union of wire values, as a record of
nilable fields exactly like the generated Go struct (one field set per
value).  Only the fields that `value2Nvalue` can populate are modeled; the
result-only variants (vertex, edge, path, set) are never produced by the
codec and are omitted.  `lVal` inlines `nebula.NList` (a struct holding the
list `Values`) and `mVal` inlines `nebula.NMap` (a struct holding the
string-keyed map `Kvs`). -/
inductive NValue where
  | mk (nVal : Option NullType) (bVal : Option Bool) (iVal : Option Int)
       (fVal : Option ℚ) (sVal : Option String) (dVal : Option NDate)
       (tVal : Option NTime) (dtVal : Option NDateTime)
       (lVal : Option (List NValue)) (mVal : Option (List (String × NValue)))
       (ggVal : Option NGeography) (duVal : Option NDuration)

/-- Go `nebula.NewValue()`: a value with every field nil. -/
def nvEmpty : NValue :=
  .mk none none none none none none none none none none none none

/-- Field assignment `value.NVal = &v`. -/
def NValue.withNVal : NValue → NullType → NValue
  | .mk _ b i f s d t dt l m gg du, n => .mk (some n) b i f s d t dt l m gg du

/-- Field assignment `value.BVal = &v`. -/
def NValue.withBVal : NValue → Bool → NValue
  | .mk n _ i f s d t dt l m gg du, b => .mk n (some b) i f s d t dt l m gg du

/-- Field assignment `value.IVal = &v`. -/
def NValue.withIVal : NValue → Int → NValue
  | .mk n b _ f s d t dt l m gg du, i => .mk n b (some i) f s d t dt l m gg du

/-- Field assignment `value.FVal = &v`. -/
def NValue.withFVal : NValue → ℚ → NValue
  | .mk n b i _ s d t dt l m gg du, f => .mk n b i (some f) s d t dt l m gg du

/-- Field assignment `value.SVal = []byte(v)`. -/
def NValue.withSVal : NValue → String → NValue
  | .mk n b i f _ d t dt l m gg du, s => .mk n b i f (some s) d t dt l m gg du

/-- Field assignment `value.LVal = nv`, where `nv` is a possibly-nil
`*nebula.NList` (nil exactly when the recursive conversion failed). -/
def NValue.withLVal : NValue → Option (List NValue) → NValue
  | .mk n b i f s d t dt _ m gg du, l => .mk n b i f s d t dt l m gg du

/-- Field assignment `value.MVal = nv`, where `nv` is a possibly-nil
`*nebula.NMap`. -/
def NValue.withMVal : NValue → Option (List (String × NValue)) → NValue
  | .mk n b i f s d t dt l _ gg du, m => .mk n b i f s d t dt l m gg du

/-- Thrift setter `value.SetDVal(&v)`. -/
def NValue.withDVal : NValue → NDate → NValue
  | .mk n b i f s _ t dt l m gg du, d => .mk n b i f s (some d) t dt l m gg du

/-- Thrift setter `value.SetTVal(&v)`. -/
def NValue.withTVal : NValue → NTime → NValue
  | .mk n b i f s d _ dt l m gg du, t => .mk n b i f s d (some t) dt l m gg du

/-- Thrift setter `value.SetDtVal(&v)`. -/
def NValue.withDtVal : NValue → NDateTime → NValue
  | .mk n b i f s d t _ l m gg du, dt => .mk n b i f s d t (some dt) l m gg du

/-- Thrift setter `value.SetGgVal(&v)`. -/
def NValue.withGgVal : NValue → NGeography → NValue
  | .mk n b i f s d t dt l m _ du, gg => .mk n b i f s d t dt l m (some gg) du

/-- Thrift setter `value.SetDuVal(&v)`. -/
def NValue.withDuVal : NValue → NDuration → NValue
  | .mk n b i f s d t dt l m gg _, du => .mk n b i f s d t dt l m gg (some du)

/-- The Go conversion `int64(v)` applied to a float modeled as the exact
rational `q`: truncation toward zero, i.e. the truncating division of the
numerator by the (positive) denominator. -/
def goInt64OfFloat (q : ℚ) : Int :=
  Int.tdiv q.num (q.den : Int)

mutual

/-- Host-language (`interface{}`) values, one constructor per arm of the
type switch in `value2Nvalue`, plus `hother` for every host type outside
the supported set (carrying the type's name, which Go's `%T` would print).
Lists and maps are separate mutually-inductive types so that the recursive
conversion functions are structurally recursive; `HostMap` is the
association list of a `map[string]interface{}` in iteration order. -/
inductive HostValue where
  | hbool (b : Bool)
  | hint (i : Int)
  | hfloat64 (q : ℚ)
  | hfloat32 (q : ℚ)
  | hstr (s : String)
  | hnil
  | hlist (xs : HostList)
  | hmap (m : HostMap)
  | hnvalue (v : NValue)
  | hdate (d : NDate)
  | hdatetime (dt : NDateTime)
  | hduration (du : NDuration)
  | htime (t : NTime)
  | hgeography (gg : NGeography)
  | hother (tyName : String)

inductive HostList where
  | nil
  | cons (x : HostValue) (xs : HostList)

inductive HostMap where
  | nil
  | cons (k : String) (v : HostValue) (m : HostMap)

end

/-- Embeds an ordinary list of host values into `HostList`. -/
def HostList.ofList : List HostValue → HostList
  | [] => .nil
  | x :: xs => .cons x (HostList.ofList xs)

/-- Embeds an association list into `HostMap`. -/
def HostMap.ofList : List (String × HostValue) → HostMap
  | [] => .nil
  | (k, v) :: m => .cons k v (HostMap.ofList m)

/-- The error message produced by the default arm of `value2Nvalue` for an
unsupported host type, with the type name in place of Go's `%T` verb. -/
def unsupportedMsg (tyName : String) : String :=
  "Only support convert boolean/float/int/string/map/list to nebula.Value but " ++ tyName

mutual

/-- Go `func value2Nvalue(any interface{}) (value *nebula.Value, err error)`.
The arms appear in source order.  As in the source, the function always
returns a (non-nil) value together with a possibly-nil error; on a failed
recursive list/map conversion the corresponding field is assigned the nil
result, so the value carries no partial list/map. -/
def value2Nvalue : HostValue → NValue × Option GoError
  | .hbool b => (nvEmpty.withBVal b, none)
  | .hint i => (nvEmpty.withIVal i, none)
  | .hfloat64 q =>
      if q = ((goInt64OfFloat q : Int) : ℚ) then
        (nvEmpty.withIVal (goInt64OfFloat q), none)
      else
        (nvEmpty.withFVal q, none)
  | .hfloat32 q =>
      if q = ((goInt64OfFloat q : Int) : ℚ) then
        (nvEmpty.withIVal (goInt64OfFloat q), none)
      else
        (nvEmpty.withFVal q, none)
  | .hstr s => (nvEmpty.withSVal s, none)
  | .hnil => (nvEmpty.withNVal NullType.nullValue, none)
  | .hlist xs =>
      match slice2Nlist xs with
      | .error e => (nvEmpty.withLVal none, some e)
      | .ok nl => (nvEmpty.withLVal (some nl), none)
  | .hmap m =>
      match parseParams m with
      | .error e => (nvEmpty.withMVal none, some e)
      | .ok nm => (nvEmpty.withMVal (some nm), none)
  | .hnvalue v => (v, none)
  | .hdate d => (nvEmpty.withDVal d, none)
  | .hdatetime dt => (nvEmpty.withDtVal dt, none)
  | .hduration du => (nvEmpty.withDuVal du, none)
  | .htime t => (nvEmpty.withTVal t, none)
  | .hgeography gg => (nvEmpty.withGgVal gg, none)
  | .hother tyName => (nvEmpty, some (.errorf (unsupportedMsg tyName)))

/-- Go `func slice2Nlist(list []interface{}) (*nebula.NList, error)`:
converts the elements in order, returning `(nil, er)` on the first element
whose conversion fails, so no partial list escapes. -/
def slice2Nlist : HostList → Except GoError (List NValue)
  | .nil => .ok []
  | .cons x xs =>
      match value2Nvalue x with
      | (_, some e) => .error e
      | (nv, none) =>
          match slice2Nlist xs with
          | .error e => .error e
          | .ok rest => .ok (nv :: rest)

/-- Modelled from the spec: `parseParams` is called by `map2Nmap` and by
`Session.ExecuteWithParameter` but its body is not among the shown sources.
Per the spec's codec contract it converts each entry of a
`map[string]interface{}` with `value2Nvalue`, aborting on the first failing
entry (first conversion failure aborts; no partial map is retained), exactly
like the inline conversion loop in `ExecuteJsonWithParameter`. -/
def parseParams : HostMap → Except GoError (List (String × NValue))
  | .nil => .ok []
  | .cons k v m =>
      match value2Nvalue v with
      | (_, some e) => .error e
      | (nv, none) =>
          match parseParams m with
          | .error e => .error e
          | .ok rest => .ok ((k, nv) :: rest)

end

/-- Go `func map2Nmap(m map[string]interface{}) (*nebula.NMap, error)`:
builds the map via `parseParams`, propagating its error.  Since the `NMap`
wrapper is inlined as the association list itself, this is exactly
`parseParams`; the map arm of `value2Nvalue` therefore calls `parseParams`
directly in this embedding. -/
def map2Nmap (m : HostMap) : Except GoError (List (String × NValue)) :=
  parseParams m

mutual

/-- True when a host value lies in the codec's supported set, i.e. contains
no `hother` leaf. -/
def isConvertible : HostValue → Bool
  | .hlist xs => isConvertibleList xs
  | .hmap m => isConvertibleMap m
  | .hother _ => false
  | _ => true

/-- Every element of the list is convertible. -/
def isConvertibleList : HostList → Bool
  | .nil => true
  | .cons x xs => isConvertible x && isConvertibleList xs

/-- Every value of the map is convertible. -/
def isConvertibleMap : HostMap → Bool
  | .nil => true
  | .cons _ v m => isConvertible v && isConvertibleMap m

end

/-- Go `RetryConfig`: the session's retry policy, reconstructed from its use
in `session.go` (`retryCfg.MaxTime` is a Go `int` attempt bound,
`retryCfg.IdleTime` a `time.Duration` sleep that has no observable effect in
this model). -/
structure RetryConfig where
  MaxTime : Int
  IdleTime : Int
deriving DecidableEq, Repr

/-- Go `ReconnectConfig`: the session's reconnect policy, reconstructed from
its use in `session.go` (`MaxTime` is an `int` attempt bound,
`MaxTimeDuration` a `time.Duration` elapsed-time bound in nanoseconds,
`IdleTime` a sleep between attempts). -/
structure ReconnectConfig where
  MaxTime : Int
  MaxTimeDuration : Int
  IdleTime : Int
deriving DecidableEq, Repr

/-- Go `timezoneInfo`. -/
structure TimezoneInfo where
  offset : Int
  name : String
deriving DecidableEq, Repr

/-- A live transport endpoint (`*connection`); its remote behavior lives in
the outcome oracles passed to the execute models, so only an identity
remains here. -/
structure Connection where
  connId : Nat
deriving DecidableEq, Repr

/-- The connection pool, seen through the operations `session.go` invokes on
it: `conns k` is the outcome of the `k`-th `getIdleConn()` call, `getCalls`
counts the `getIdleConn()` calls made so far, and `releaseCalls` counts the
`release(conn)` calls made so far (the two counters record the interaction
with the external pool). -/
structure ConnectionPool where
  conns : Nat → Except String Connection
  getCalls : Nat
  releaseCalls : Nat

/-- A fresh session as handed out by `SessionPool.newSession()`: session id,
connection and returned-at timestamp. -/
structure NewSessionData where
  sessionID : Int
  connection : Connection
  returnedAt : Int
deriving DecidableEq, Repr

/-- The session pool, seen through `newSession()`: `sessions k` is the
outcome of the `k`-th call, `newCalls` counts the calls made so far. -/
structure SessionPool where
  sessions : Nat → Except String NewSessionData
  newCalls : Nat

/-- Go `type Session struct`: session id, nilable connection, the two
nilable owning-pool back references, returned-at timestamp, timezone info
and the two policies.  The mutex and logger are omitted (the model is
sequential and logging has no observable effect); `signOutCalls` and
`closeCalls` are instrumentation counting the remote `signOut` and `close`
calls the session issues on its connection. -/
structure Session where
  sessionID : Int
  connection : Option Connection
  connPool : Option ConnectionPool
  sessPool : Option SessionPool
  returnedAt : Int
  tz : TimezoneInfo
  reconnectCfg : ReconnectConfig
  retryCfg : RetryConfig
  signOutCalls : Nat
  closeCalls : Nat

/-- Go `func (session *Session) reConnect() error`, with the session state
threaded explicitly.  Connection-pool arm: ask the pool for an idle
connection, on failure return the error (reformatted by `fmt.Errorf`),
on success release the old connection to the pool and swap in the new one.
Session-pool arm: ask for a brand-new session, on failure return the error,
on success best-effort sign out and close the old connection (when one is
held) and adopt the new session's identity, connection and timestamp.
When both pool references are nil the function falls through and returns
nil without touching the session. -/
def Session.reConnect (s : Session) : Session × Option GoError :=
  match s.connPool with
  | some cp =>
      match cp.conns cp.getCalls with
      | .error msg =>
          ({ s with connPool := some { cp with getCalls := cp.getCalls + 1 } },
           some (.errorf msg))
      | .ok newconnection =>
          ({ s with
              connPool := some { cp with
                getCalls := cp.getCalls + 1,
                releaseCalls := cp.releaseCalls + 1 },
              connection := some newconnection }, none)
  | none =>
      match s.sessPool with
      | some sp =>
          match sp.sessions sp.newCalls with
          | .error msg =>
              ({ s with sessPool := some { sp with newCalls := sp.newCalls + 1 } },
               some (.errorf msg))
          | .ok newsession =>
              let s1 := { s with sessPool := some { sp with newCalls := sp.newCalls + 1 } }
              let s2 :=
                match s1.connection with
                | some _ =>
                    { s1 with
                        signOutCalls := s1.signOutCalls + 1,
                        closeCalls := s1.closeCalls + 1 }
                | none => s1
              ({ s2 with
                  sessionID := newsession.sessionID,
                  connection := some newsession.connection,
                  returnedAt := newsession.returnedAt }, none)
      | none => (s, none)

/-- Go `func (session *Session) Release()`.  A released session (nil
connection) is left untouched (the warning is only logged); otherwise the
session signs out remotely (best effort), returns the connection to the
connection pool when one owns it, and clears the connection reference. -/
def Session.Release (s : Session) : Session :=
  match s.connection with
  | none => s
  | some _ =>
      let s1 := { s with signOutCalls := s.signOutCalls + 1 }
      let s2 :=
        match s1.connPool with
        | some cp =>
            { s1 with connPool := some { cp with releaseCalls := cp.releaseCalls + 1 } }
        | none => s1
      { s2 with connection := none }

/-- The reconnect loop inside `reconnectWithExecuteErr`, with explicit fuel.
Each iteration calls `reConnect`; on success the loop breaks.  On failure it
breaks when the nonzero elapsed-time bound is reached (`elapsed i` is the
`time.Since(startRetryTime)` reading in iteration `i`), then when the
nonzero attempt bound is reached, and otherwise sleeps and loops.  The
result is the final session state, the number of `reConnect` attempts made,
and the final `_err`; `none` means the loop is still running after `fuel`
iterations. -/
def reconnectLoop (elapsed : Nat → Int) :
    Nat → Session → Nat → Int → Option (Session × Nat × Option GoError)
  | 0, _, _, _ => none
  | fuel + 1, s, i, retryTime =>
      match s.reConnect with
      | (s', none) => some (s', i + 1, none)
      | (s', some e) =>
          if s'.reconnectCfg.MaxTimeDuration ≠ 0 ∧
             s'.reconnectCfg.MaxTimeDuration ≤ elapsed i then
            some (s', i + 1, some e)
          else if s'.reconnectCfg.MaxTime ≠ 0 then
            if s'.reconnectCfg.MaxTime ≤ retryTime + 1 then
              some (s', i + 1, some e)
            else
              reconnectLoop elapsed fuel s' (i + 1) (retryTime + 1)
          else
            reconnectLoop elapsed fuel s' (i + 1) retryTime

/-- Go `func (session *Session) reconnectWithExecuteErr(resp, err) error`.
If `err` is not a transport exception and `resp` is not a session-invalid
response, the error is returned unchanged and the loop is never entered
(the returned attempt count is 0).  Otherwise the reconnect loop runs; if
its final `_err` is non-nil the fixed error `Nebula Down` is returned,
otherwise nil. -/
def Session.reconnectWithExecuteErr (s : Session) (elapsed : Nat → Int) (fuel : Nat)
    (resp : Option ExecutionResponse) (err : Option GoError) :
    Option (Session × Nat × Option GoError) :=
  if ¬ isTransportOpt err ∧ ¬ IsServerSessionError resp then
    some (s, 0, err)
  else
    match reconnectLoop elapsed fuel s 0 0 with
    | none => none
    | some (s', n, some _) => some (s', n, some (.errorf "Nebula Down"))
    | some (s', n, none) => some (s', n, none)

/-- Outcome of one remote `connection.executeWithParameter` call: the
possibly-nil response and the possibly-nil error, as returned by the
transport (an external collaborator, so a call's outcome is drawn from an
oracle stream indexed by the number of calls made). -/
structure Outcome where
  resp : Option ExecutionResponse
  err : Option GoError
deriving DecidableEq, Repr

/-- True for outcomes on which the retry loop of `ExecuteWithParameter`
loops again: the call failed (`err` non-nil) but neither with a transport
exception nor with a session-invalid response. -/
def isResidual (o : Outcome) : Bool :=
  o.err.isSome && !isTransportOpt o.err && !IsServerSessionError o.resp

/-- The `for` retry loop inside `ExecuteWithParameter`'s `execFunc`, with
explicit fuel.  `att k` is the outcome of the `k`-th remote call overall and
`i` the index of the next call; the result is the index after the last call
made (i.e. the total number of calls when started at 0) together with the
final `(resp, err)` pair, or `none` if the loop is still running after
`fuel` iterations.  Break order mirrors the source: `IsQueryOk`, then
transport-or-session error, then the attempt bound (only consulted when
`MaxTime > 0`, and reached when the incremented `retryTime` is at least
`MaxTime`). -/
def execRetryLoop (cfg : RetryConfig) (att : Nat → Outcome) :
    Nat → Nat → Int → Option (Nat × Outcome)
  | 0, _, _ => none
  | fuel + 1, i, retryTime =>
      let o := att i
      if IsQueryOk o.err o.resp then some (i + 1, o)
      else if isTransportOpt o.err || IsServerSessionError o.resp then some (i + 1, o)
      else if 0 < cfg.MaxTime then
        if cfg.MaxTime ≤ retryTime + 1 then some (i + 1, o)
        else execRetryLoop cfg att fuel (i + 1) (retryTime + 1)
      else execRetryLoop cfg att fuel (i + 1) retryTime

/-- Go `ResultSet`, restricted to the field `session.go` reads back
(`ret.resp`, the raw execution response). -/
structure ResultSet where
  resp : Option ExecutionResponse
deriving DecidableEq, Repr

/-- Modelled from the spec: `genResultSet(resp, timezoneInfo)` is called by
`execFunc` but its body is not among the shown sources.  Per the spec it is
a pure decoding step over an already-parsed response ("decode the raw
response into a structured result, applying the session's timezone context
to temporal fields"), so it wraps the response into a `ResultSet` and
reports no error. -/
def genResultSet (resp : Option ExecutionResponse) (_tz : TimezoneInfo) :
    Option ResultSet × Option GoError :=
  (some ⟨resp⟩, none)

/-- The whole `execFunc` closure of `ExecuteWithParameter`: run the retry
loop starting at call index `start` with `retryTime = 0`, then either
return `(nil, err)` for a non-nil final error or decode the response via
`genResultSet`.  The returned `Nat` is the call index after the loop. -/
def execFuncRS (cfg : RetryConfig) (tz : TimezoneInfo) (att : Nat → Outcome)
    (fuel : Nat) (start : Nat) : Option (Nat × Option ResultSet × Option GoError) :=
  match execRetryLoop cfg att fuel start 0 with
  | none => none
  | some (n, o) =>
      match o.err with
      | some e => some (n, none, some e)
      | none =>
          match genResultSet o.resp tz with
          | (rs, none) => some (n, rs, none)
          | (_, some e) => some (n, none, some e)

/-- The `param = ret.resp` extraction in `executeWithReconnect`: the raw
response when the `execFunc` result is a `*ResultSet`, nil otherwise. -/
def paramOf : Option ResultSet → Option ExecutionResponse
  | some ret => ret.resp
  | none => none

/-- The immediate-return test of `executeWithReconnect`: a `*ResultSet`
result returns when `IsQueryOk(err, ret.resp)`, any other result returns
when `err == nil`. -/
def queryOkReturn : Option ResultSet → Option GoError → Bool
  | some ret, e1 => IsQueryOk e1 ret.resp
  | none, e1 => e1.isNone

/-- Observable trace of one `ExecuteWithParameter` /
`ExecuteJsonWithParameter` call: final session state, result and error as
returned to the caller, total remote calls, remote calls made by the first
`execFunc` run, number of `execFunc` invocations, whether the reconnect
loop was entered (0 or 1 times) and how many `reConnect` attempts it made. -/
structure ExecTrace (α : Type) where
  sess : Session
  result : Option α
  err : Option GoError
  calls : Nat
  callsFirst : Nat
  fCalls : Nat
  reconnectEntered : Nat
  reconnectAttempts : Nat

/-- Go `func (session *Session) ExecuteWithParameter(stmt, params)`,
composed with `executeWithReconnect` exactly as in the source: fail fast
when released, convert the parameters, run `execFunc`; on a query-ok
`ResultSet` or a nil-error non-`ResultSet` result return it; otherwise
escalate to `reconnectWithExecuteErr` and, when that reports success, run
`execFunc` once more and return its outcome as final.  The remote-call
outcomes are drawn from `att`, the reconnect-time readings from `elapsed`;
`fuelRetry` bounds each retry loop and `fuelRecon` the reconnect loop
(`none` = some loop still running). -/
def Session.ExecuteWithParameter (s : Session) (att : Nat → Outcome)
    (elapsed : Nat → Int) (fuelRetry fuelRecon : Nat)
    (params : HostMap) : Option (ExecTrace ResultSet) :=
  match s.connection with
  | none =>
      some ⟨s, none, some (.errorf "failed to execute: Session has been released"),
            0, 0, 0, 0, 0⟩
  | some _ =>
      match parseParams params with
      | .error e => some ⟨s, none, some e, 0, 0, 0, 0, 0⟩
      | .ok _ =>
          match execFuncRS s.retryCfg s.tz att fuelRetry 0 with
          | none => none
          | some (n1, r1, e1) =>
              if queryOkReturn r1 e1 then
                some ⟨s, r1, none, n1, n1, 1, 0, 0⟩
              else
                let entered : Nat :=
                  if isTransportOpt e1 || IsServerSessionError (paramOf r1) then 1 else 0
                match s.reconnectWithExecuteErr elapsed fuelRecon (paramOf r1) e1 with
                | none => none
                | some (s', nAtt, some err2) =>
                    some ⟨s', none, some err2, n1, n1, 1, entered, nAtt⟩
                | some (s', nAtt, none) =>
                    match execFuncRS s'.retryCfg s'.tz att fuelRetry n1 with
                    | none => none
                    | some (n2, r2, e2) =>
                        match e2 with
                        | some e => some ⟨s', none, some e, n2, n1, 2, entered, nAtt⟩
                        | none => some ⟨s', r2, none, n2, n1, 2, entered, nAtt⟩

/-- Outcome of one remote `connection.ExecuteJsonWithParameter` call: the
possibly-nil JSON payload (opaque bytes, modeled as a string) and the
possibly-nil error. -/
structure JOutcome where
  resp : Option String
  err : Option GoError
deriving DecidableEq, Repr

/-- The `for` retry loop inside `ExecuteJsonWithParameter`'s `execFunc`.
Unlike the `ResultSet` loop it returns directly: on a nil error it returns
the payload as success; on a transport exception, or when the positive
attempt bound is reached, it returns `(nil, err)`; otherwise it sleeps and
loops.  There is no session-invalid check on this path. -/
def execJsonRetryLoop (cfg : RetryConfig) (att : Nat → JOutcome) :
    Nat → Nat → Int → Option (Nat × Option String × Option GoError)
  | 0, _, _ => none
  | fuel + 1, i, retryTime =>
      let o := att i
      if o.err.isNone then some (i + 1, o.resp, none)
      else if isTransportOpt o.err then some (i + 1, none, o.err)
      else if 0 < cfg.MaxTime then
        if cfg.MaxTime ≤ retryTime + 1 then some (i + 1, none, o.err)
        else execJsonRetryLoop cfg att fuel (i + 1) (retryTime + 1)
      else execJsonRetryLoop cfg att fuel (i + 1) retryTime

/-- Go `func (session *Session) ExecuteJsonWithParameter(stmt, params)`,
composed with `executeWithReconnect`.  The result of `execFunc` here is
never a `*ResultSet`, so `executeWithReconnect` passes a nil response to
`reconnectWithExecuteErr`: only a transport exception can enter the
reconnect loop on this path. -/
def Session.ExecuteJsonWithParameter (s : Session) (att : Nat → JOutcome)
    (elapsed : Nat → Int) (fuelRetry fuelRecon : Nat)
    (params : HostMap) : Option (ExecTrace String) :=
  match s.connection with
  | none =>
      some ⟨s, none, some (.errorf "failed to execute: Session has been released"),
            0, 0, 0, 0, 0⟩
  | some _ =>
      match parseParams params with
      | .error e => some ⟨s, none, some e, 0, 0, 0, 0, 0⟩
      | .ok _ =>
          match execJsonRetryLoop s.retryCfg att fuelRetry 0 0 with
          | none => none
          | some (n1, bs1, e1) =>
              match e1 with
              | none => some ⟨s, bs1, none, n1, n1, 1, 0, 0⟩
              | some e =>
                  let entered : Nat := if isTransportOpt (some e) then 1 else 0
                  match s.reconnectWithExecuteErr elapsed fuelRecon none (some e) with
                  | none => none
                  | some (s', nAtt, some err2) =>
                      some ⟨s', none, some err2, n1, n1, 1, entered, nAtt⟩
                  | some (s', nAtt, none) =>
                      match execJsonRetryLoop s'.retryCfg att fuelRetry n1 0 with
                      | none => none
                      | some (n2, bs2, e2) =>
                          match e2 with
                          | some e' => some ⟨s', none, some e', n2, n1, 2, entered, nAtt⟩
                          | none => some ⟨s', bs2, none, n2, n1, 2, entered, nAtt⟩

/-- The integral-collapse test of the float arms: the Go comparison
`v == float64(int64(v))` holds exactly when the rational has denominator 1,
i.e. zero fractional part. -/
theorem goInt64OfFloat_cast_eq_iff (q : ℚ) :
    q = ((goInt64OfFloat q : Int) : ℚ) ↔ q.den = 1 := by
  constructor
  · intro h
    rw [h]
    exact Rat.den_intCast _
  · intro h
    have h1 : goInt64OfFloat q = q.num := by
      simp [goInt64OfFloat, h]
    rw [h1, Rat.coe_int_num_of_den_eq_one h]

mutual

/-- The codec reports no error exactly on convertible host values. -/
theorem value2Nvalue_none_iff :
    ∀ hv : HostValue, (value2Nvalue hv).2 = none ↔ isConvertible hv = true
  | .hbool _ => by simp [value2Nvalue, isConvertible]
  | .hint _ => by simp [value2Nvalue, isConvertible]
  | .hfloat64 q => by
      simp only [value2Nvalue, isConvertible]
      split <;> simp
  | .hfloat32 q => by
      simp only [value2Nvalue, isConvertible]
      split <;> simp
  | .hstr _ => by simp [value2Nvalue, isConvertible]
  | .hnil => by simp [value2Nvalue, isConvertible]
  | .hlist xs => by
      have h := slice2Nlist_ok_iff xs
      simp only [value2Nvalue, isConvertible]
      cases hs : slice2Nlist xs with
      | error e => simp [hs] at h ⊢; exact h
      | ok nl => simp [hs] at h ⊢; exact h
  | .hmap m => by
      have h := parseParams_ok_iff m
      simp only [value2Nvalue, isConvertible, map2Nmap]
      cases hs : parseParams m with
      | error e => simp [hs] at h ⊢; exact h
      | ok nm => simp [hs] at h ⊢; exact h
  | .hnvalue _ => by simp [value2Nvalue, isConvertible]
  | .hdate _ => by simp [value2Nvalue, isConvertible]
  | .hdatetime _ => by simp [value2Nvalue, isConvertible]
  | .hduration _ => by simp [value2Nvalue, isConvertible]
  | .htime _ => by simp [value2Nvalue, isConvertible]
  | .hgeography _ => by simp [value2Nvalue, isConvertible]
  | .hother _ => by simp [value2Nvalue, isConvertible]

/-- The list conversion succeeds exactly on lists of convertible values. -/
theorem slice2Nlist_ok_iff :
    ∀ xs : HostList, (∃ l, slice2Nlist xs = .ok l) ↔ isConvertibleList xs = true
  | .nil => by simp [slice2Nlist, isConvertibleList]
  | .cons x xs => by
      have hx := value2Nvalue_none_iff x
      have hxs := slice2Nlist_ok_iff xs
      simp only [slice2Nlist, isConvertibleList]
      rcases hveq : value2Nvalue x with ⟨nv, e⟩
      rw [hveq] at hx
      cases e with
      | some e0 => simp at hx; simp [hx]
      | none =>
          simp at hx
          cases hs : slice2Nlist xs with
          | error e1 => simp [hs] at hxs ⊢; simp [hxs]
          | ok rest => simp [hs] at hxs ⊢; simp [hx, hxs]

/-- The map conversion succeeds exactly on maps of convertible values. -/
theorem parseParams_ok_iff :
    ∀ m : HostMap, (∃ l, parseParams m = .ok l) ↔ isConvertibleMap m = true
  | .nil => by simp [parseParams, isConvertibleMap]
  | .cons k v m => by
      have hv := value2Nvalue_none_iff v
      have hm := parseParams_ok_iff m
      simp only [parseParams, isConvertibleMap]
      rcases hveq : value2Nvalue v with ⟨nv, e⟩
      rw [hveq] at hv
      cases e with
      | some e0 => simp at hv; simp [hv]
      | none =>
          simp at hv
          cases hs : parseParams m with
          | error e1 => simp [hs] at hm ⊢; simp [hm]
          | ok rest => simp [hs] at hm ⊢; simp [hv, hm]

end

/-- A convertible host value converts to some wire value with a nil error. -/
theorem value2Nvalue_of_convertible (x : HostValue) (h : isConvertible x = true) :
    ∃ nv, value2Nvalue x = (nv, none) := by
  have h2 := (value2Nvalue_none_iff x).mpr h
  rcases hveq : value2Nvalue x with ⟨nv, e⟩
  rw [hveq] at h2
  simp at h2
  subst h2
  exact ⟨nv, rfl⟩

/-- A residual outcome passes neither the query-ok break nor the
transport-or-session break of the retry loop. -/
theorem isResidual_breaks (o : Outcome) (h : isResidual o = true) :
    IsQueryOk o.err o.resp = false ∧
      (isTransportOpt o.err || IsServerSessionError o.resp) = false := by
  simp only [isResidual, Bool.and_eq_true, Bool.not_eq_true'] at h
  obtain ⟨⟨h1, h2⟩, h3⟩ := h
  constructor
  · simp [IsQueryOk, Option.isNone_iff_eq_none]
    intro he
    rw [he] at h1
    simp at h1
  · simp [h2, h3]

/-- One iteration of the retry loop on a residual outcome: the loop sleeps
and re-invokes, incrementing `retryTime` exactly when the attempt bound is
positive, provided the bound has not been reached. -/
theorem execRetryLoop_residual_step (cfg : RetryConfig) (att : Nat → Outcome)
    (fuel i : Nat) (rt : Int)
    (hres : isResidual (att i) = true)
    (hbound : 0 < cfg.MaxTime → rt + 1 < cfg.MaxTime) :
    execRetryLoop cfg att (fuel + 1) i rt =
      execRetryLoop cfg att fuel (i + 1) (if 0 < cfg.MaxTime then rt + 1 else rt) := by
  obtain ⟨h1, h2⟩ := isResidual_breaks (att i) hres
  rw [execRetryLoop]
  simp only [h1, h2, Bool.false_eq_true, if_false]
  by_cases hmax : 0 < cfg.MaxTime
  · have := hbound hmax
    rw [if_pos hmax, if_neg (by omega), if_pos hmax]
  · rw [if_neg hmax, if_neg hmax]

/-- Running the retry loop over a run of `k` residual outcomes advances the
call index by `k` (and `retryTime` alongside when the bound is positive). -/
theorem execRetryLoop_residual_run (cfg : RetryConfig) (att : Nat → Outcome) :
    ∀ (k fuel i : Nat) (rt : Int),
    (∀ j, j < k → isResidual (att (i + j)) = true) →
    (0 < cfg.MaxTime → rt + k < cfg.MaxTime) →
    execRetryLoop cfg att (fuel + k) i rt =
      execRetryLoop cfg att fuel (i + k) (if 0 < cfg.MaxTime then rt + k else rt) := by
  intro k
  induction k with
  | zero =>
      intro fuel i rt _ _
      simp
  | succ k ih =>
      intro fuel i rt hres hbound
      have hres0 : isResidual (att i) = true := by
        have := hres 0 (by omega)
        simpa using this
      have hstep := execRetryLoop_residual_step cfg att (fuel + k) i rt hres0
        (fun hmax => by have := hbound hmax; push_cast at this; omega)
      have heq : fuel + (k + 1) = (fuel + k) + 1 := by omega
      have hres1 : ∀ j, j < k → isResidual (att (i + 1 + j)) = true := by
        intro j hj
        have h2 : i + 1 + j = i + (j + 1) := by omega
        rw [h2]
        exact hres (j + 1) (by omega)
      have ecast : (((k + 1 : Nat)) : Int) = (k : Int) + 1 := by push_cast; ring
      rw [heq, hstep]
      by_cases hmax : 0 < cfg.MaxTime
      · have ih2 := ih fuel (i + 1) (rt + 1) hres1
          (fun _ => by have := hbound hmax; push_cast at this; omega)
        simp only [if_pos hmax] at ih2 ⊢
        rw [ih2]
        have e1 : i + 1 + k = i + (k + 1) := by omega
        have e2 : rt + 1 + (k : Int) = rt + ((k : Int) + 1) := by ring
        rw [e1, e2, ecast]
      · have ih2 := ih fuel (i + 1) rt hres1 (fun hmax2 => absurd hmax2 hmax)
        simp only [if_neg hmax] at ih2 ⊢
        rw [ih2]
        have e1 : i + 1 + k = i + (k + 1) := by omega
        rw [e1]

/-- The retry loop breaks and returns the current outcome as soon as the
outcome is query-ok or a transport/session error. -/
theorem execRetryLoop_break (cfg : RetryConfig) (att : Nat → Outcome)
    (fuel i : Nat) (rt : Int)
    (h : IsQueryOk (att i).err (att i).resp = true ∨
         (isTransportOpt (att i).err || IsServerSessionError (att i).resp) = true) :
    execRetryLoop cfg att (fuel + 1) i rt = some (i + 1, att i) := by
  rw [execRetryLoop]
  rcases h with h | h
  · simp [h]
  · by_cases hq : IsQueryOk (att i).err (att i).resp = true
    · simp [hq]
    · simp only [Bool.not_eq_true] at hq
      simp [hq, h]

/-- The retry loop breaks with the current residual outcome when the
incremented `retryTime` reaches the positive attempt bound. -/
theorem execRetryLoop_bound_break (cfg : RetryConfig) (att : Nat → Outcome)
    (fuel i : Nat) (rt : Int)
    (hres : isResidual (att i) = true)
    (hmax : 0 < cfg.MaxTime)
    (hreach : cfg.MaxTime ≤ rt + 1) :
    execRetryLoop cfg att (fuel + 1) i rt = some (i + 1, att i) := by
  obtain ⟨h1, h2⟩ := isResidual_breaks (att i) hres
  rw [execRetryLoop]
  simp only [h1, h2, Bool.false_eq_true, if_false]
  rw [if_pos hmax, if_pos hreach]

/-- A residual outcome carries a non-nil error. -/
theorem isResidual_err_isSome (o : Outcome) (h : isResidual o = true) :
    ∃ e, o.err = some e := by
  simp only [isResidual, Bool.and_eq_true] at h
  obtain ⟨⟨h1, _⟩, _⟩ := h
  cases he : o.err with
  | none => rw [he] at h1; simp at h1
  | some e => exact ⟨e, rfl⟩

/-- The retry loop, started at call index `start` with residual outcomes on
the whole run, performs exactly `N` calls and finishes with the outcome of
the last call. -/
theorem execRetryLoop_all_residual (cfg : RetryConfig) (att : Nat → Outcome)
    (N : Nat) (hN : 0 < N) (hcfg : cfg.MaxTime = (N : Int))
    (hres : ∀ i, i < N → isResidual (att i) = true)
    (fuel : Nat) (hfuel : N ≤ fuel) :
    execRetryLoop cfg att fuel 0 0 = some (N, att (N - 1)) := by
  obtain ⟨f, rfl⟩ : ∃ f, fuel = (f + 1) + (N - 1) := ⟨fuel - N, by omega⟩
  have hmax : 0 < cfg.MaxTime := by rw [hcfg]; exact_mod_cast hN
  have hrun := execRetryLoop_residual_run cfg att (N - 1) (f + 1) 0 0
    (fun j hj => by simpa using hres j (by omega))
    (fun _ => by rw [hcfg]; omega)
  simp only [if_pos hmax, Nat.zero_add, zero_add] at hrun
  rw [hrun]
  have hbreak := execRetryLoop_bound_break cfg att f (N - 1) ((N - 1 : Nat) : Int)
    (hres (N - 1) (by omega)) hmax (by rw [hcfg]; omega)
  rw [hbreak]
  have hsucc : N - 1 + 1 = N := by omega
  rw [hsucc]

/-- C1: for a retry policy with positive attempt bound `N` and a call whose
outcome on every attempt is a residual error (non-nil, neither a transport
exception nor a session-invalid response — the class the spec describes as
neither transport, session-invalid, nor query error), the retry loop inside
`ExecuteWithParameter` performs exactly `N` remote invocations and
`execFunc` then returns the error of the `N`-th attempt. -/
theorem c1_retry_loop_exactly_N_then_last_error (cfg : RetryConfig)
    (tz : TimezoneInfo) (att : Nat → Outcome) (N : Nat)
    (hN : 0 < N) (hcfg : cfg.MaxTime = (N : Int))
    (hres : ∀ i, i < N → isResidual (att i) = true)
    (fuel : Nat) (hfuel : N ≤ fuel) :
    execRetryLoop cfg att fuel 0 0 = some (N, att (N - 1)) ∧
    ∃ e, (att (N - 1)).err = some e ∧
      execFuncRS cfg tz att fuel 0 = some (N, none, some e) := by
  have hloop := execRetryLoop_all_residual cfg att N hN hcfg hres fuel hfuel
  refine ⟨hloop, ?_⟩
  obtain ⟨e, he⟩ := isResidual_err_isSome (att (N - 1)) (hres (N - 1) (by omega))
  refine ⟨e, he, ?_⟩
  rw [execFuncRS, hloop]
  simp [he]

/-- Witness for C1 at a concrete policy (N = 2), a constant residual error
stream, and fuel 5: both attempts happen and the second attempt's error is
returned. -/
theorem c1_witness :
    (0 < 2 ∧ (∀ i, i < 2 →
        isResidual ((fun _ => (⟨none, some (.errorf "transient")⟩ : Outcome)) i) = true)) ∧
    execRetryLoop ⟨2, 0⟩ (fun _ => ⟨none, some (.errorf "transient")⟩) 5 0 0 =
        some (2, (⟨none, some (.errorf "transient")⟩ : Outcome)) ∧
    ∃ e, ((⟨none, some (.errorf "transient")⟩ : Outcome)).err = some e ∧
      execFuncRS ⟨2, 0⟩ ⟨0, ""⟩ (fun _ => ⟨none, some (.errorf "transient")⟩) 5 0 =
        some (2, none, some e) :=
  ⟨⟨by decide, by decide⟩,
   c1_retry_loop_exactly_N_then_last_error ⟨2, 0⟩ ⟨0, ""⟩
     (fun _ => ⟨none, some (.errorf "transient")⟩) 2 (by decide) (by decide)
     (by decide) 5 (by decide)⟩

/-- A residual outcome is not a transport exception. -/
theorem isResidual_not_transport (o : Outcome) (h : isResidual o = true) :
    isTransportOpt o.err = false := by
  obtain ⟨_, h2⟩ := isResidual_breaks o h
  simp only [Bool.or_eq_false_iff] at h2
  exact h2.1

/-- On an all-residual run, `execFunc` returns `(nil, err)` with the error
of the `N`-th attempt after exactly `N` calls. -/
theorem execFuncRS_all_residual (cfg : RetryConfig) (tz : TimezoneInfo)
    (att : Nat → Outcome) (N : Nat) (hN : 0 < N) (hcfg : cfg.MaxTime = (N : Int))
    (hres : ∀ i, i < N → isResidual (att i) = true)
    (fuel : Nat) (hfuel : N ≤ fuel) :
    ∃ e, (att (N - 1)).err = some e ∧
      execFuncRS cfg tz att fuel 0 = some (N, none, some e) := by
  have hloop := execRetryLoop_all_residual cfg att N hN hcfg hres fuel hfuel
  obtain ⟨e, he⟩ := isResidual_err_isSome (att (N - 1)) (hres (N - 1) (by omega))
  refine ⟨e, he, ?_⟩
  rw [execFuncRS, hloop]
  simp [he]

/-- When the very first remote call is query-ok, `execFunc` returns the
decoded response after exactly one call. -/
theorem execFuncRS_first_queryOk (cfg : RetryConfig) (tz : TimezoneInfo)
    (att : Nat → Outcome) (fuel : Nat) (r : ExecutionResponse)
    (hfuel : 1 ≤ fuel) (hatt : att 0 = ⟨some r, none⟩)
    (hr : IsServerSessionError (some r) = false) :
    execFuncRS cfg tz att fuel 0 = some (1, some ⟨some r⟩, none) := by
  obtain ⟨f, rfl⟩ : ∃ f, fuel = f + 1 := ⟨fuel - 1, by omega⟩
  have hq : IsQueryOk (att 0).err (att 0).resp = true := by
    rw [hatt]; simp [IsQueryOk, hr]
  have hloop := execRetryLoop_break cfg att f 0 0 (Or.inl hq)
  rw [execFuncRS, hloop, hatt]
  simp [genResultSet]

/-- Unfolding `ExecuteWithParameter` when `executeWithReconnect` returns the
first `execFunc` result immediately. -/
theorem ExecuteWithParameter_queryOk (s : Session) (att : Nat → Outcome)
    (elapsed : Nat → Int) (fuelRetry fuelRecon : Nat) (params : HostMap)
    (pm : List (String × NValue)) (c : Connection)
    (n1 : Nat) (r1 : Option ResultSet) (e1 : Option GoError)
    (hconn : s.connection = some c)
    (hparams : parseParams params = .ok pm)
    (hexec : execFuncRS s.retryCfg s.tz att fuelRetry 0 = some (n1, r1, e1))
    (hq : queryOkReturn r1 e1 = true) :
    s.ExecuteWithParameter att elapsed fuelRetry fuelRecon params =
      some ⟨s, r1, none, n1, n1, 1, 0, 0⟩ := by
  simp only [Session.ExecuteWithParameter, hconn, hparams, hexec, hq, if_true]

/-- Unfolding `ExecuteWithParameter` when the first `execFunc` run ends with
an error that triggers no reconnect: the error is returned unchanged and the
reconnect loop is never entered. -/
theorem ExecuteWithParameter_no_trigger (s : Session) (att : Nat → Outcome)
    (elapsed : Nat → Int) (fuelRetry fuelRecon : Nat) (params : HostMap)
    (pm : List (String × NValue)) (c : Connection)
    (n1 : Nat) (r1 : Option ResultSet) (e : GoError)
    (hconn : s.connection = some c)
    (hparams : parseParams params = .ok pm)
    (hexec : execFuncRS s.retryCfg s.tz att fuelRetry 0 = some (n1, r1, some e))
    (hq : queryOkReturn r1 (some e) = false)
    (htrig : (isTransportOpt (some e) || IsServerSessionError (paramOf r1)) = false) :
    s.ExecuteWithParameter att elapsed fuelRetry fuelRecon params =
      some ⟨s, none, some e, n1, n1, 1, 0, 0⟩ := by
  simp only [Bool.or_eq_false_iff] at htrig
  obtain ⟨ht, hs⟩ := htrig
  simp only [Session.ExecuteWithParameter, hconn, hparams, hexec, hq,
    Bool.false_eq_true, if_false, Session.reconnectWithExecuteErr, ht, hs,
    Bool.or_self, Bool.not_false, not_false_eq_true, and_self, if_true]

/-- Unfolding `ExecuteWithParameter` when the first `execFunc` run triggers
the reconnect loop and the loop exhausts its budget: the fixed error
`Nebula Down` is returned after exactly one reconnect cycle. -/
theorem ExecuteWithParameter_trigger_fail (s : Session) (att : Nat → Outcome)
    (elapsed : Nat → Int) (fuelRetry fuelRecon : Nat) (params : HostMap)
    (pm : List (String × NValue)) (c : Connection)
    (n1 : Nat) (r1 : Option ResultSet) (e1 : Option GoError)
    (s' : Session) (nr : Nat) (msg : GoError)
    (hconn : s.connection = some c)
    (hparams : parseParams params = .ok pm)
    (hexec : execFuncRS s.retryCfg s.tz att fuelRetry 0 = some (n1, r1, e1))
    (hq : queryOkReturn r1 e1 = false)
    (htrig : (isTransportOpt e1 || IsServerSessionError (paramOf r1)) = true)
    (hrec : reconnectLoop elapsed fuelRecon s 0 0 = some (s', nr, some msg)) :
    s.ExecuteWithParameter att elapsed fuelRetry fuelRecon params =
      some ⟨s', none, some (.errorf "Nebula Down"), n1, n1, 1, 1, nr⟩ := by
  have hcond : ¬ (¬ isTransportOpt e1 ∧ ¬ IsServerSessionError (paramOf r1)) := by
    simp only [Bool.or_eq_true] at htrig
    rcases htrig with h | h <;> simp [h]
  simp only [Session.ExecuteWithParameter, hconn, hparams, hexec, hq,
    Bool.false_eq_true, if_false, Session.reconnectWithExecuteErr,
    if_neg hcond, hrec, htrig, if_true]

/-- Unfolding `ExecuteWithParameter` when the first `execFunc` run triggers
the reconnect loop, the loop succeeds, and `execFunc` runs once more: the
second run's outcome is final. -/
theorem ExecuteWithParameter_trigger_success (s : Session) (att : Nat → Outcome)
    (elapsed : Nat → Int) (fuelRetry fuelRecon : Nat) (params : HostMap)
    (pm : List (String × NValue)) (c : Connection)
    (n1 : Nat) (r1 : Option ResultSet) (e1 : Option GoError)
    (s' : Session) (nr : Nat) (n2 : Nat) (r2 : Option ResultSet) (e2 : Option GoError)
    (hconn : s.connection = some c)
    (hparams : parseParams params = .ok pm)
    (hexec : execFuncRS s.retryCfg s.tz att fuelRetry 0 = some (n1, r1, e1))
    (hq : queryOkReturn r1 e1 = false)
    (htrig : (isTransportOpt e1 || IsServerSessionError (paramOf r1)) = true)
    (hrec : reconnectLoop elapsed fuelRecon s 0 0 = some (s', nr, none))
    (hexec2 : execFuncRS s'.retryCfg s'.tz att fuelRetry n1 = some (n2, r2, e2)) :
    s.ExecuteWithParameter att elapsed fuelRetry fuelRecon params =
      some ⟨s', if e2.isSome then none else r2, e2, n2, n1, 2, 1, nr⟩ := by
  have hcond : ¬ (¬ isTransportOpt e1 ∧ ¬ IsServerSessionError (paramOf r1)) := by
    simp only [Bool.or_eq_true] at htrig
    rcases htrig with h | h <;> simp [h]
  simp only [Session.ExecuteWithParameter, hconn, hparams, hexec, hq,
    Bool.false_eq_true, if_false, Session.reconnectWithExecuteErr,
    if_neg hcond, hrec, hexec2, htrig, if_true]
  cases e2 <;> simp

/-- C2 counterexample: an outcome the claim classifies as `QueryError`
(non-nil error that is neither a transport exception nor paired with a
session-invalid response) is re-invoked by the retry loop rather than
stopping it immediately: with attempt bound 2 the loop makes 2 remote
invocations, not 1. -/
theorem c2_counterexample :
    execRetryLoop ⟨2, 0⟩ (fun _ => ⟨none, some (.errorf "query failed")⟩) 10 0 0 =
      some (2, (⟨none, some (.errorf "query failed")⟩ : Outcome)) ∧ (2 : Nat) ≠ 1 := by
  decide

/-- C2 amended: a server response whose error code is not session-invalid
(the response-level query error) stops the retry loop immediately after one
invocation, is surfaced to the caller as a `ResultSet` with nil error, and
triggers no reconnect; a non-nil error that is neither a transport
exception nor a session-invalid response is instead retried up to the
positive attempt bound `N`, after which the last error is surfaced verbatim
with no reconnect. -/
theorem c2_amended :
    (∀ (s : Session) (att : Nat → Outcome) (elapsed : Nat → Int)
        (fuelRetry fuelRecon : Nat) (params : HostMap)
        (pm : List (String × NValue)) (c : Connection) (r : ExecutionResponse),
      s.connection = some c →
      parseParams params = .ok pm →
      1 ≤ fuelRetry →
      att 0 = ⟨some r, none⟩ →
      IsError r = true →
      IsServerSessionError (some r) = false →
      s.ExecuteWithParameter att elapsed fuelRetry fuelRecon params =
        some ⟨s, some ⟨some r⟩, none, 1, 1, 1, 0, 0⟩) ∧
    (∀ (s : Session) (att : Nat → Outcome) (elapsed : Nat → Int)
        (fuelRetry fuelRecon : Nat) (params : HostMap)
        (pm : List (String × NValue)) (c : Connection) (N : Nat),
      s.connection = some c →
      parseParams params = .ok pm →
      0 < N →
      s.retryCfg.MaxTime = (N : Int) →
      (∀ i, i < N → isResidual (att i) = true) →
      N ≤ fuelRetry →
      ∃ e, (att (N - 1)).err = some e ∧
        s.ExecuteWithParameter att elapsed fuelRetry fuelRecon params =
          some ⟨s, none, some e, N, N, 1, 0, 0⟩) := by
  constructor
  · intro s att elapsed fuelRetry fuelRecon params pm c r hconn hparams hfr hatt _ hr
    have hexec := execFuncRS_first_queryOk s.retryCfg s.tz att fuelRetry r hfr hatt hr
    exact ExecuteWithParameter_queryOk s att elapsed fuelRetry fuelRecon params pm c
      1 (some ⟨some r⟩) none hconn hparams hexec (by simp [queryOkReturn, IsQueryOk, hr])
  · intro s att elapsed fuelRetry fuelRecon params pm c N hconn hparams hN hcfg hres hfuel
    obtain ⟨e, he, hexec⟩ := execFuncRS_all_residual s.retryCfg s.tz att N hN hcfg hres
      fuelRetry hfuel
    refine ⟨e, he, ?_⟩
    have htr : isTransportOpt (some e) = false := by
      have := isResidual_not_transport (att (N - 1)) (hres (N - 1) (by omega))
      rwa [he] at this
    exact ExecuteWithParameter_no_trigger s att elapsed fuelRetry fuelRecon params pm c
      N none e hconn hparams hexec (by simp [queryOkReturn])
      (by simp [htr, paramOf, IsServerSessionError])

/-- Witness for C2 amended at concrete inputs: a semantic-error response is
surfaced after one call with no reconnect, and a constant residual error
with attempt bound 2 is surfaced after two calls with no reconnect. -/
theorem c2_witness :
    (let s0 : Session :=
      { sessionID := 7, connection := some ⟨0⟩, connPool := none, sessPool := none,
        returnedAt := 0, tz := ⟨0, "UTC"⟩, reconnectCfg := ⟨1, 0, 0⟩,
        retryCfg := ⟨2, 0⟩, signOutCalls := 0, closeCalls := 0 }
     let r0 : ExecutionResponse := ⟨.otherCode (-1005), "SemanticError"⟩
     s0.ExecuteWithParameter (fun _ => ⟨some r0, none⟩) (fun _ => 0) 3 3 .nil =
        some ⟨s0, some ⟨some r0⟩, none, 1, 1, 1, 0, 0⟩) ∧
    (let s0 : Session :=
      { sessionID := 7, connection := some ⟨0⟩, connPool := none, sessPool := none,
        returnedAt := 0, tz := ⟨0, "UTC"⟩, reconnectCfg := ⟨1, 0, 0⟩,
        retryCfg := ⟨2, 0⟩, signOutCalls := 0, closeCalls := 0 }
     ∃ e, ((fun (_ : Nat) => (⟨none, some (.errorf "flaky")⟩ : Outcome)) (2 - 1)).err = some e ∧
      s0.ExecuteWithParameter (fun _ => ⟨none, some (.errorf "flaky")⟩) (fun _ => 0) 3 3 .nil =
        some ⟨s0, none, some e, 2, 2, 1, 0, 0⟩) :=
  ⟨c2_amended.1
      { sessionID := 7, connection := some ⟨0⟩, connPool := none, sessPool := none,
        returnedAt := 0, tz := ⟨0, "UTC"⟩, reconnectCfg := ⟨1, 0, 0⟩,
        retryCfg := ⟨2, 0⟩, signOutCalls := 0, closeCalls := 0 }
      (fun _ => ⟨some ⟨.otherCode (-1005), "SemanticError"⟩, none⟩) (fun _ => 0)
      3 3 .nil [] ⟨0⟩ ⟨.otherCode (-1005), "SemanticError"⟩
      rfl (by simp [parseParams]) (by decide) rfl (by decide) (by decide),
   c2_amended.2
      { sessionID := 7, connection := some ⟨0⟩, connPool := none, sessPool := none,
        returnedAt := 0, tz := ⟨0, "UTC"⟩, reconnectCfg := ⟨1, 0, 0⟩,
        retryCfg := ⟨2, 0⟩, signOutCalls := 0, closeCalls := 0 }
      (fun _ => ⟨none, some (.errorf "flaky")⟩) (fun _ => 0) 3 3 .nil [] ⟨0⟩ 2
      rfl (by simp [parseParams]) (by decide) (by decide) (by decide) (by decide)⟩

/-- An outcome the JSON retry loop retries: a non-nil error that is not a
transport exception. -/
def isJsonResidual (o : JOutcome) : Bool :=
  o.err.isSome && !isTransportOpt o.err

/-- The retry loop of the RS path, started at index 0, runs through `k`
residual outcomes and then breaks at attempt `k`, having made `k + 1`
calls. -/
theorem execRetryLoop_break_at (cfg : RetryConfig) (att : Nat → Outcome)
    (k fuel : Nat)
    (hres : ∀ j, j < k → isResidual (att j) = true)
    (hbrk : IsQueryOk (att k).err (att k).resp = true ∨
      (isTransportOpt (att k).err || IsServerSessionError (att k).resp) = true)
    (hbound : 0 < cfg.MaxTime → (k : Int) < cfg.MaxTime)
    (hfuel : k + 1 ≤ fuel) :
    execRetryLoop cfg att fuel 0 0 = some (k + 1, att k) := by
  obtain ⟨f, rfl⟩ : ∃ f, fuel = (f + 1) + k := ⟨fuel - (k + 1), by omega⟩
  have hrun := execRetryLoop_residual_run cfg att k (f + 1) 0 0
    (fun j hj => by simpa using hres j hj)
    (fun hmax => by simpa using hbound hmax)
  simp only [Nat.zero_add, zero_add] at hrun
  rw [hrun]
  by_cases hmax : 0 < cfg.MaxTime
  · simp only [if_pos hmax]
    exact execRetryLoop_break cfg att f k _ hbrk
  · simp only [if_neg hmax]
    exact execRetryLoop_break cfg att f k _ hbrk

/-- One iteration of the JSON retry loop on a retryable (non-nil,
non-transport) error: the loop sleeps and re-invokes. -/
theorem execJsonRetryLoop_residual_step (cfg : RetryConfig) (att : Nat → JOutcome)
    (fuel i : Nat) (rt : Int)
    (hres : isJsonResidual (att i) = true)
    (hbound : 0 < cfg.MaxTime → rt + 1 < cfg.MaxTime) :
    execJsonRetryLoop cfg att (fuel + 1) i rt =
      execJsonRetryLoop cfg att fuel (i + 1) (if 0 < cfg.MaxTime then rt + 1 else rt) := by
  simp only [isJsonResidual, Bool.and_eq_true, Bool.not_eq_true'] at hres
  obtain ⟨h1, h2⟩ := hres
  have h3 : (att i).err.isNone = false := by
    cases he : (att i).err with
    | none => rw [he] at h1; simp at h1
    | some e => simp
  rw [execJsonRetryLoop]
  simp only [h3, h2, Bool.false_eq_true, if_false]
  by_cases hmax : 0 < cfg.MaxTime
  · have := hbound hmax
    rw [if_pos hmax, if_neg (by omega), if_pos hmax]
  · rw [if_neg hmax, if_neg hmax]

/-- Running the JSON retry loop over a run of `k` retryable errors advances
the call index by `k`. -/
theorem execJsonRetryLoop_residual_run (cfg : RetryConfig) (att : Nat → JOutcome) :
    ∀ (k fuel i : Nat) (rt : Int),
    (∀ j, j < k → isJsonResidual (att (i + j)) = true) →
    (0 < cfg.MaxTime → rt + k < cfg.MaxTime) →
    execJsonRetryLoop cfg att (fuel + k) i rt =
      execJsonRetryLoop cfg att fuel (i + k) (if 0 < cfg.MaxTime then rt + k else rt) := by
  intro k
  induction k with
  | zero =>
      intro fuel i rt _ _
      simp
  | succ k ih =>
      intro fuel i rt hres hbound
      have hres0 : isJsonResidual (att i) = true := by
        have := hres 0 (by omega)
        simpa using this
      have hstep := execJsonRetryLoop_residual_step cfg att (fuel + k) i rt hres0
        (fun hmax => by have := hbound hmax; push_cast at this; omega)
      have heq : fuel + (k + 1) = (fuel + k) + 1 := by omega
      have hres1 : ∀ j, j < k → isJsonResidual (att (i + 1 + j)) = true := by
        intro j hj
        have h2 : i + 1 + j = i + (j + 1) := by omega
        rw [h2]
        exact hres (j + 1) (by omega)
      have ecast : (((k + 1 : Nat)) : Int) = (k : Int) + 1 := by push_cast; ring
      rw [heq, hstep]
      by_cases hmax : 0 < cfg.MaxTime
      · have ih2 := ih fuel (i + 1) (rt + 1) hres1
          (fun _ => by have := hbound hmax; push_cast at this; omega)
        simp only [if_pos hmax] at ih2 ⊢
        rw [ih2]
        have e1 : i + 1 + k = i + (k + 1) := by omega
        have e2 : rt + 1 + (k : Int) = rt + ((k : Int) + 1) := by ring
        rw [e1, e2, ecast]
      · have ih2 := ih fuel (i + 1) rt hres1 (fun hmax2 => absurd hmax2 hmax)
        simp only [if_neg hmax] at ih2 ⊢
        rw [ih2]
        have e1 : i + 1 + k = i + (k + 1) := by omega
        rw [e1]

/-- The JSON retry loop returns the current payload as success as soon as
the error is nil, and `(nil, err)` as soon as the error is a transport
exception. -/
theorem execJsonRetryLoop_break (cfg : RetryConfig) (att : Nat → JOutcome)
    (fuel i : Nat) (rt : Int) :
    ((att i).err = none →
      execJsonRetryLoop cfg att (fuel + 1) i rt = some (i + 1, (att i).resp, none)) ∧
    (isTransportOpt (att i).err = true →
      execJsonRetryLoop cfg att (fuel + 1) i rt = some (i + 1, none, (att i).err)) := by
  constructor
  · intro h
    rw [execJsonRetryLoop]
    simp [h]
  · intro h
    rw [execJsonRetryLoop]
    have h2 : (att i).err.isNone = false := by
      cases he : (att i).err with
      | none => rw [he] at h; simp [isTransportOpt] at h
      | some e => simp
    simp [h2, h]

/-- The JSON retry loop, started at index `start`, runs through `k`
retryable errors and breaks on the transport exception of attempt
`start + k`, having made `k + 1` calls. -/
theorem execJsonRetryLoop_transport_at (cfg : RetryConfig) (att : Nat → JOutcome)
    (k fuel start : Nat)
    (hres : ∀ j, j < k → isJsonResidual (att (start + j)) = true)
    (htr : isTransportOpt (att (start + k)).err = true)
    (hbound : 0 < cfg.MaxTime → (k : Int) < cfg.MaxTime)
    (hfuel : k + 1 ≤ fuel) :
    execJsonRetryLoop cfg att fuel start 0 =
      some (start + k + 1, none, (att (start + k)).err) := by
  obtain ⟨f, rfl⟩ : ∃ f, fuel = (f + 1) + k := ⟨fuel - (k + 1), by omega⟩
  have hrun := execJsonRetryLoop_residual_run cfg att k (f + 1) start 0 hres
    (fun hmax => by simpa using hbound hmax)
  simp only [zero_add] at hrun
  rw [hrun]
  by_cases hmax : 0 < cfg.MaxTime
  · simp only [if_pos hmax]
    exact (execJsonRetryLoop_break cfg att f (start + k) _).2 htr
  · simp only [if_neg hmax]
    exact (execJsonRetryLoop_break cfg att f (start + k) _).2 htr

/-- Unfolding `ExecuteJsonWithParameter` when the first `execFunc` run
returns successfully: the payload is returned with no reconnect. -/
theorem ExecuteJsonWithParameter_success (s : Session) (att : Nat → JOutcome)
    (elapsed : Nat → Int) (fuelRetry fuelRecon : Nat) (params : HostMap)
    (pm : List (String × NValue)) (c : Connection)
    (n1 : Nat) (bs1 : Option String)
    (hconn : s.connection = some c)
    (hparams : parseParams params = .ok pm)
    (hexec : execJsonRetryLoop s.retryCfg att fuelRetry 0 0 = some (n1, bs1, none)) :
    s.ExecuteJsonWithParameter att elapsed fuelRetry fuelRecon params =
      some ⟨s, bs1, none, n1, n1, 1, 0, 0⟩ := by
  simp only [Session.ExecuteJsonWithParameter, hconn, hparams, hexec]

/-- Unfolding `ExecuteJsonWithParameter` when the first `execFunc` run ends
with a non-transport error: the error is surfaced unchanged and the
reconnect loop is never entered. -/
theorem ExecuteJsonWithParameter_no_trigger (s : Session) (att : Nat → JOutcome)
    (elapsed : Nat → Int) (fuelRetry fuelRecon : Nat) (params : HostMap)
    (pm : List (String × NValue)) (c : Connection)
    (n1 : Nat) (bs1 : Option String) (e : GoError)
    (hconn : s.connection = some c)
    (hparams : parseParams params = .ok pm)
    (hexec : execJsonRetryLoop s.retryCfg att fuelRetry 0 0 = some (n1, bs1, some e))
    (htr : isTransportOpt (some e) = false) :
    s.ExecuteJsonWithParameter att elapsed fuelRetry fuelRecon params =
      some ⟨s, none, some e, n1, n1, 1, 0, 0⟩ := by
  simp only [Session.ExecuteJsonWithParameter, hconn, hparams, hexec,
    Session.reconnectWithExecuteErr, htr, IsServerSessionError,
    Bool.false_eq_true, not_false_eq_true, and_self, if_true]
  simp

/-- Unfolding `ExecuteJsonWithParameter` when the first `execFunc` run ends
with a transport exception and the reconnect loop exhausts its budget. -/
theorem ExecuteJsonWithParameter_trigger_fail (s : Session) (att : Nat → JOutcome)
    (elapsed : Nat → Int) (fuelRetry fuelRecon : Nat) (params : HostMap)
    (pm : List (String × NValue)) (c : Connection)
    (n1 : Nat) (bs1 : Option String) (e : GoError)
    (s' : Session) (nr : Nat) (msg : GoError)
    (hconn : s.connection = some c)
    (hparams : parseParams params = .ok pm)
    (hexec : execJsonRetryLoop s.retryCfg att fuelRetry 0 0 = some (n1, bs1, some e))
    (htr : isTransportOpt (some e) = true)
    (hrec : reconnectLoop elapsed fuelRecon s 0 0 = some (s', nr, some msg)) :
    s.ExecuteJsonWithParameter att elapsed fuelRetry fuelRecon params =
      some ⟨s', none, some (.errorf "Nebula Down"), n1, n1, 1, 1, nr⟩ := by
  have hcond : ¬ (¬ isTransportOpt (some e) ∧ ¬ IsServerSessionError none) := by
    simp [htr]
  simp only [Session.ExecuteJsonWithParameter, hconn, hparams, hexec,
    Session.reconnectWithExecuteErr, if_neg hcond, hrec, htr, if_true]
  simp [IsServerSessionError]

/-- Unfolding `ExecuteJsonWithParameter` when the first `execFunc` run ends
with a transport exception, the reconnect loop succeeds, and `execFunc`
runs once more: the second run's outcome is final. -/
theorem ExecuteJsonWithParameter_trigger_success (s : Session) (att : Nat → JOutcome)
    (elapsed : Nat → Int) (fuelRetry fuelRecon : Nat) (params : HostMap)
    (pm : List (String × NValue)) (c : Connection)
    (n1 : Nat) (bs1 : Option String) (e : GoError)
    (s' : Session) (nr : Nat) (n2 : Nat) (bs2 : Option String) (e2 : Option GoError)
    (hconn : s.connection = some c)
    (hparams : parseParams params = .ok pm)
    (hexec : execJsonRetryLoop s.retryCfg att fuelRetry 0 0 = some (n1, bs1, some e))
    (htr : isTransportOpt (some e) = true)
    (hrec : reconnectLoop elapsed fuelRecon s 0 0 = some (s', nr, none))
    (hexec2 : execJsonRetryLoop s'.retryCfg att fuelRetry n1 0 = some (n2, bs2, e2)) :
    s.ExecuteJsonWithParameter att elapsed fuelRetry fuelRecon params =
      some ⟨s', if e2.isSome then none else bs2, e2, n2, n1, 2, 1, nr⟩ := by
  have hcond : ¬ (¬ isTransportOpt (some e) ∧ ¬ IsServerSessionError none) := by
    simp [htr]
  simp only [Session.ExecuteJsonWithParameter, hconn, hparams, hexec,
    Session.reconnectWithExecuteErr, if_neg hcond, hrec, hexec2, htr, if_true]
  cases e2 <;> simp [hexec2, IsServerSessionError]

/-- An error is a transport exception exactly when it is a non-nil
`thrift.TransportException`. -/
theorem isTransportOpt_eq_true_iff (o : Option GoError) :
    isTransportOpt o = true ↔ ∃ m, o = some (.transportException m) := by
  cases o with
  | none => simp [isTransportOpt]
  | some e =>
      cases e with
      | transportException m => simp [isTransportOpt]
      | errorf m => simp [isTransportOpt]

/-- A fixed timezone for concrete runs. -/
def tzUTC : TimezoneInfo := ⟨0, "UTC"⟩

/-- A concrete pool-less session with retry bound 2 used by the witnesses. -/
def exSession : Session :=
  { sessionID := 7, connection := some ⟨0⟩, connPool := none, sessPool := none,
    returnedAt := 0, tz := tzUTC, reconnectCfg := ⟨1, 0, 0⟩,
    retryCfg := ⟨2, 0⟩, signOutCalls := 0, closeCalls := 0 }

/-- A concrete successful response. -/
def exRespOk : ExecutionResponse := ⟨.SUCCEEDED, ""⟩

/-- A concrete outcome stream: transport exception on the first call,
success afterwards. -/
def exAttTransportThenOk : Nat → Outcome := fun i =>
  if i = 0 then ⟨none, some (.transportException "broken pipe")⟩
  else ⟨some exRespOk, none⟩

/-- A concrete JSON outcome stream: transport exception on the first call,
success afterwards. -/
def exJAttTransportThenOk : Nat → JOutcome := fun i =>
  if i = 0 then ⟨none, some (.transportException "broken pipe")⟩
  else ⟨some "resultjson", none⟩

/-- C3 counterexample: on the JSON execute path a session-invalid server
response triggers no reconnect cycle, contrary to the claim.  First run:
the server's session-invalid verdict arrives inside the JSON payload with a
nil transport error (the only way a server response reaches this path), the
call is treated as a success and the reconnect count stays 0.  Second run:
the verdict arrives as a non-transport Go error; the loop retries it to the
bound (2 calls, so it is also retried locally) and surfaces it, and the
reconnect count again stays 0 — the claim demands exactly one reconnect
cycle. -/
theorem c3_counterexample :
    ((exSession.ExecuteJsonWithParameter
        (fun _ => ⟨some "jsonPayloadWithCode_E_SESSION_INVALID", none⟩)
        (fun _ => 0) 3 3 .nil).map
          (fun t => (t.reconnectEntered, t.calls, t.err, t.result)) =
        some (0, 1, none, some "jsonPayloadWithCode_E_SESSION_INVALID")) ∧
    ((exSession.ExecuteJsonWithParameter
        (fun _ => ⟨none, some (.errorf "session invalid or timeout, reported by server")⟩)
        (fun _ => 0) 3 3 .nil).map
          (fun t => (t.reconnectEntered, t.calls, t.err)) =
        some (0, 2, some (.errorf "session invalid or timeout, reported by server"))) ∧
    (0 : Nat) ≠ 1 := by
  refine ⟨?_, ?_, by decide⟩ <;> rfl

/-- C3 amended: on the ResultSet path, a transport exception or a
session-invalid response (delivered, as usual, with a nil error) ends the
retry loop at its first occurrence — `k` residual attempts are followed by
exactly one breaking call — and exactly one reconnect cycle is entered.  On
the JSON path the same holds for transport exceptions, and reconnect is
entered only for them: any first-`execFunc` result that is not a transport
exception leaves the reconnect count at 0. -/
theorem c3_amended :
    (∀ (s : Session) (att : Nat → Outcome) (elapsed : Nat → Int)
        (fuelRetry fuelRecon : Nat) (params : HostMap)
        (pm : List (String × NValue)) (c : Connection) (k : Nat)
        (s' : Session) (nr : Nat) (rres : Option GoError),
      s.connection = some c →
      parseParams params = .ok pm →
      (∀ j, j < k → isResidual (att j) = true) →
      (isTransportOpt (att k).err = true ∨
        ((att k).err = none ∧ IsServerSessionError (att k).resp = true)) →
      (0 < s.retryCfg.MaxTime → (k : Int) < s.retryCfg.MaxTime) →
      k + 1 ≤ fuelRetry →
      reconnectLoop elapsed fuelRecon s 0 0 = some (s', nr, rres) →
      (rres = none → ∃ o2, execFuncRS s'.retryCfg s'.tz att fuelRetry (k + 1) = some o2) →
      ∃ t, s.ExecuteWithParameter att elapsed fuelRetry fuelRecon params = some t ∧
        t.callsFirst = k + 1 ∧ t.reconnectEntered = 1) ∧
    (∀ (s : Session) (att : Nat → JOutcome) (elapsed : Nat → Int)
        (fuelRetry fuelRecon : Nat) (params : HostMap)
        (pm : List (String × NValue)) (c : Connection) (k : Nat)
        (s' : Session) (nr : Nat) (rres : Option GoError),
      s.connection = some c →
      parseParams params = .ok pm →
      (∀ j, j < k → isJsonResidual (att j) = true) →
      isTransportOpt (att k).err = true →
      (0 < s.retryCfg.MaxTime → (k : Int) < s.retryCfg.MaxTime) →
      k + 1 ≤ fuelRetry →
      reconnectLoop elapsed fuelRecon s 0 0 = some (s', nr, rres) →
      (rres = none → ∃ o2, execJsonRetryLoop s'.retryCfg att fuelRetry (k + 1) 0 = some o2) →
      ∃ t, s.ExecuteJsonWithParameter att elapsed fuelRetry fuelRecon params = some t ∧
        t.callsFirst = k + 1 ∧ t.reconnectEntered = 1) ∧
    (∀ (s : Session) (att : Nat → JOutcome) (elapsed : Nat → Int)
        (fuelRetry fuelRecon : Nat) (params : HostMap)
        (pm : List (String × NValue)) (c : Connection)
        (n1 : Nat) (bs1 : Option String) (e1 : Option GoError),
      s.connection = some c →
      parseParams params = .ok pm →
      execJsonRetryLoop s.retryCfg att fuelRetry 0 0 = some (n1, bs1, e1) →
      isTransportOpt e1 = false →
      ∃ t, s.ExecuteJsonWithParameter att elapsed fuelRetry fuelRecon params = some t ∧
        t.reconnectEntered = 0) := by
  refine ⟨?_, ?_, ?_⟩
  · intro s att elapsed fuelRetry fuelRecon params pm c k s' nr rres
      hconn hparams hres htrig hbound hfuel hrec hsecond
    have hbrk : IsQueryOk (att k).err (att k).resp = true ∨
        (isTransportOpt (att k).err || IsServerSessionError (att k).resp) = true := by
      rcases htrig with ht | ⟨_, hs⟩
      · exact Or.inr (by simp [ht])
      · exact Or.inr (by simp [hs])
    have hloop := execRetryLoop_break_at s.retryCfg att k fuelRetry hres hbrk hbound hfuel
    rcases htrig with ht | ⟨hnone, hsess⟩
    · obtain ⟨m, he⟩ := (isTransportOpt_eq_true_iff (att k).err).mp ht
      have hexec : execFuncRS s.retryCfg s.tz att fuelRetry 0 =
          some (k + 1, none, some (.transportException m)) := by
        rw [execFuncRS, hloop]
        simp [he]
      have hq : queryOkReturn none (some (.transportException m)) = false := by
        simp [queryOkReturn]
      have htrig2 : (isTransportOpt (some (.transportException m)) ||
          IsServerSessionError (paramOf none)) = true := by
        simp [isTransportOpt, paramOf, IsServerSessionError]
      cases rres with
      | some msg =>
          exact ⟨_, ExecuteWithParameter_trigger_fail s att elapsed fuelRetry fuelRecon
            params pm c (k + 1) none (some (.transportException m)) s' nr msg
            hconn hparams hexec hq htrig2 hrec, rfl, rfl⟩
      | none =>
          obtain ⟨⟨n2, r2, e2⟩, hexec2⟩ := hsecond rfl
          exact ⟨_, ExecuteWithParameter_trigger_success s att elapsed fuelRetry fuelRecon
            params pm c (k + 1) none (some (.transportException m)) s' nr n2 r2 e2
            hconn hparams hexec hq htrig2 hrec hexec2, rfl, rfl⟩
    · have hexec : execFuncRS s.retryCfg s.tz att fuelRetry 0 =
          some (k + 1, some ⟨(att k).resp⟩, none) := by
        rw [execFuncRS, hloop]
        simp [hnone, genResultSet]
      have hq : queryOkReturn (some ⟨(att k).resp⟩) none = false := by
        simp [queryOkReturn, IsQueryOk, hsess]
      have htrig2 : (isTransportOpt none ||
          IsServerSessionError (paramOf (some ⟨(att k).resp⟩))) = true := by
        simp [isTransportOpt, paramOf, hsess]
      cases rres with
      | some msg =>
          exact ⟨_, ExecuteWithParameter_trigger_fail s att elapsed fuelRetry fuelRecon
            params pm c (k + 1) (some ⟨(att k).resp⟩) none s' nr msg
            hconn hparams hexec hq htrig2 hrec, rfl, rfl⟩
      | none =>
          obtain ⟨⟨n2, r2, e2⟩, hexec2⟩ := hsecond rfl
          exact ⟨_, ExecuteWithParameter_trigger_success s att elapsed fuelRetry fuelRecon
            params pm c (k + 1) (some ⟨(att k).resp⟩) none s' nr n2 r2 e2
            hconn hparams hexec hq htrig2 hrec hexec2, rfl, rfl⟩
  · intro s att elapsed fuelRetry fuelRecon params pm c k s' nr rres
      hconn hparams hres htr hbound hfuel hrec hsecond
    have hloop := execJsonRetryLoop_transport_at s.retryCfg att k fuelRetry 0
      (fun j hj => by simpa using hres j hj) (by simpa using htr) hbound hfuel
    simp only [Nat.zero_add, zero_add] at hloop
    obtain ⟨m, he⟩ := (isTransportOpt_eq_true_iff (att k).err).mp htr
    rw [he] at hloop
    have htr2 : isTransportOpt (some (GoError.transportException m)) = true := by
      simp [isTransportOpt]
    cases rres with
    | some msg =>
        exact ⟨_, ExecuteJsonWithParameter_trigger_fail s att elapsed fuelRetry fuelRecon
          params pm c (k + 1) none (.transportException m) s' nr msg
          hconn hparams hloop htr2 hrec, rfl, rfl⟩
    | none =>
        obtain ⟨⟨n2, bs2, e2⟩, hexec2⟩ := hsecond rfl
        exact ⟨_, ExecuteJsonWithParameter_trigger_success s att elapsed fuelRetry fuelRecon
          params pm c (k + 1) none (.transportException m) s' nr n2 bs2 e2
          hconn hparams hloop htr2 hrec hexec2, rfl, rfl⟩
  · intro s att elapsed fuelRetry fuelRecon params pm c n1 bs1 e1
      hconn hparams hexec htr
    cases e1 with
    | none =>
        exact ⟨_, ExecuteJsonWithParameter_success s att elapsed fuelRetry fuelRecon
          params pm c n1 bs1 hconn hparams hexec, rfl⟩
    | some e =>
        exact ⟨_, ExecuteJsonWithParameter_no_trigger s att elapsed fuelRetry fuelRecon
          params pm c n1 bs1 e hconn hparams hexec htr, rfl⟩

/-- Witness for C3 amended at concrete inputs: a first-call transport
exception on each path exits the loop after one call and enters exactly one
reconnect cycle (the pool-less session reconnects vacuously), and a JSON
run ending in a plain error enters no reconnect cycle. -/
theorem c3_witness :
    (∃ t, exSession.ExecuteWithParameter exAttTransportThenOk (fun _ => 0) 5 3 .nil =
        some t ∧ t.callsFirst = 0 + 1 ∧ t.reconnectEntered = 1) ∧
    (∃ t, exSession.ExecuteJsonWithParameter exJAttTransportThenOk (fun _ => 0) 5 3 .nil =
        some t ∧ t.callsFirst = 0 + 1 ∧ t.reconnectEntered = 1) ∧
    (∃ t, exSession.ExecuteJsonWithParameter
        (fun _ => ⟨none, some (.errorf "flaky")⟩) (fun _ => 0) 3 3 .nil =
        some t ∧ t.reconnectEntered = 0) :=
  ⟨c3_amended.1 exSession exAttTransportThenOk (fun _ => 0) 5 3 .nil [] ⟨0⟩ 0
      exSession 1 none rfl (by simp [parseParams]) (by decide) (Or.inl (by decide))
      (by decide) (by decide) rfl
      (fun _ => ⟨(2, some ⟨some exRespOk⟩, none), by decide⟩),
   c3_amended.2.1 exSession exJAttTransportThenOk (fun _ => 0) 5 3 .nil [] ⟨0⟩ 0
      exSession 1 none rfl (by simp [parseParams]) (by decide) (by decide)
      (by decide) (by decide) rfl
      (fun _ => ⟨(2, some "resultjson", none), by decide⟩),
   c3_amended.2.2 exSession (fun _ => ⟨none, some (.errorf "flaky")⟩) (fun _ => 0) 3 3 .nil
      [] ⟨0⟩ 2 none (some (.errorf "flaky")) rfl (by simp [parseParams])
      (by decide) (by decide)⟩

/-- C4: when the first `execFunc` run fails with a reconnect-triggering
outcome and the reconnect loop succeeds, `executeWithReconnect` makes
exactly one more `execFunc` attempt on the repaired session and returns
that attempt's outcome — success or failure — as final, with exactly one
reconnect cycle and no further cascade (`fCalls = 2`,
`reconnectEntered = 1`). -/
theorem c4_single_final_attempt_after_reconnect (s : Session) (att : Nat → Outcome)
    (elapsed : Nat → Int) (fuelRetry fuelRecon : Nat) (params : HostMap)
    (pm : List (String × NValue)) (c : Connection)
    (n1 : Nat) (r1 : Option ResultSet) (e1 : Option GoError)
    (s' : Session) (nr : Nat) (n2 : Nat) (r2 : Option ResultSet) (e2 : Option GoError)
    (hconn : s.connection = some c)
    (hparams : parseParams params = .ok pm)
    (hexec1 : execFuncRS s.retryCfg s.tz att fuelRetry 0 = some (n1, r1, e1))
    (hq : queryOkReturn r1 e1 = false)
    (htrig : (isTransportOpt e1 || IsServerSessionError (paramOf r1)) = true)
    (hrec : reconnectLoop elapsed fuelRecon s 0 0 = some (s', nr, none))
    (hexec2 : execFuncRS s'.retryCfg s'.tz att fuelRetry n1 = some (n2, r2, e2)) :
    s.ExecuteWithParameter att elapsed fuelRetry fuelRecon params =
      some ⟨s', if e2.isSome then none else r2, e2, n2, n1, 2, 1, nr⟩ :=
  ExecuteWithParameter_trigger_success s att elapsed fuelRetry fuelRecon params pm c
    n1 r1 e1 s' nr n2 r2 e2 hconn hparams hexec1 hq htrig hrec hexec2

/-- Witness for C4 at concrete inputs: first call hits a transport
exception, the pool-less session reconnects vacuously, the single retried
`execFunc` succeeds and its result is final with one reconnect cycle. -/
theorem c4_witness :
    execFuncRS exSession.retryCfg exSession.tz exAttTransportThenOk 5 0 =
        some (1, none, some (.transportException "broken pipe")) ∧
    reconnectLoop (fun _ => 0) 3 exSession 0 0 = some (exSession, 1, none) ∧
    execFuncRS exSession.retryCfg exSession.tz exAttTransportThenOk 5 1 =
        some (2, some ⟨some exRespOk⟩, none) ∧
    exSession.ExecuteWithParameter exAttTransportThenOk (fun _ => 0) 5 3 .nil =
      some ⟨exSession, some ⟨some exRespOk⟩, none, 2, 1, 2, 1, 1⟩ := by
  refine ⟨by decide, rfl, by decide, ?_⟩
  have h := c4_single_final_attempt_after_reconnect exSession exAttTransportThenOk
    (fun _ => 0) 5 3 .nil [] ⟨0⟩ 1 none (some (.transportException "broken pipe"))
    exSession 1 2 (some ⟨some exRespOk⟩) none
    rfl (by simp [parseParams]) (by decide) (by decide) (by decide) rfl (by decide)
  simpa using h

/-- One failing `reConnect` call on a session whose connection pool denies
every acquisition: the pool call counter advances and the reformatted error
is returned. -/
theorem reConnect_pool_fail (s : Session) (cp : ConnectionPool) (m : String)
    (hcp : s.connPool = some cp) (hm : cp.conns cp.getCalls = .error m) :
    s.reConnect =
      ({ s with connPool := some { cp with getCalls := cp.getCalls + 1 } },
       some (.errorf m)) := by
  simp only [Session.reConnect, hcp, hm]

/-- On an always-failing pool, the reconnect loop with a nonzero attempt
bound terminates with a failing attempt once the bound fits inside the
fuel. -/
theorem reconnectLoop_fail_attempt_axis (elapsed : Nat → Int) :
    ∀ (fuel : Nat) (s : Session) (cp : ConnectionPool) (i : Nat) (rt : Int),
    s.connPool = some cp →
    (∀ k, ∃ m, cp.conns k = Except.error m) →
    s.reconnectCfg.MaxTime ≠ 0 →
    s.reconnectCfg.MaxTime ≤ rt + fuel →
    1 ≤ fuel →
    ∃ s' n msg, reconnectLoop elapsed fuel s i rt = some (s', n, some msg) := by
  intro fuel
  induction fuel with
  | zero => intro s cp i rt _ _ _ _ h; omega
  | succ f ih =>
      intro s cp i rt hcp hfail hne hbound _
      obtain ⟨m, hm⟩ := hfail cp.getCalls
      have hrc := reConnect_pool_fail s cp m hcp hm
      rw [reconnectLoop, hrc]
      dsimp only
      by_cases hd : s.reconnectCfg.MaxTimeDuration ≠ 0 ∧
          s.reconnectCfg.MaxTimeDuration ≤ elapsed i
      · rw [if_pos hd]
        exact ⟨_, _, _, rfl⟩
      · rw [if_neg hd, if_pos hne]
        by_cases hreach : s.reconnectCfg.MaxTime ≤ rt + 1
        · rw [if_pos hreach]
          exact ⟨_, _, _, rfl⟩
        · rw [if_neg hreach]
          exact ih _ { cp with getCalls := cp.getCalls + 1 } (i + 1) (rt + 1)
            rfl (fun k => hfail k) hne (by push_cast at hbound ⊢; omega)
            (by push_cast at hbound hreach; omega)

/-- On an always-failing pool with the time axis off and attempt bound
`N > 0`, the reconnect loop makes exactly the remaining `N - r` attempts
and stops. -/
theorem reconnectLoop_fail_exact_count (elapsed : Nat → Int) (N : Nat) (hN : 0 < N) :
    ∀ (fuel : Nat) (s : Session) (cp : ConnectionPool) (i r : Nat),
    s.connPool = some cp →
    (∀ k, ∃ m, cp.conns k = Except.error m) →
    s.reconnectCfg.MaxTime = (N : Int) →
    s.reconnectCfg.MaxTimeDuration = 0 →
    r < N →
    N - r ≤ fuel →
    ∃ s' msg, reconnectLoop elapsed fuel s i (r : Int) = some (s', i + (N - r), some msg) := by
  intro fuel
  induction fuel with
  | zero => intro s cp i r _ _ _ _ hr h; omega
  | succ f ih =>
      intro s cp i r hcp hfail hmax hdur hr _
      obtain ⟨m, hm⟩ := hfail cp.getCalls
      have hrc := reConnect_pool_fail s cp m hcp hm
      rw [reconnectLoop, hrc]
      dsimp only
      rw [if_neg (by simp [hdur])]
      rw [if_pos (show s.reconnectCfg.MaxTime ≠ 0 by rw [hmax]; exact_mod_cast hN.ne')]
      by_cases hreach : s.reconnectCfg.MaxTime ≤ (r : Int) + 1
      · rw [if_pos hreach]
        have hr1 : r + 1 = N := by
          rw [hmax] at hreach
          omega
        have hidx : i + (N - r) = i + 1 := by omega
        rw [hidx]
        exact ⟨_, _, rfl⟩
      · rw [if_neg hreach]
        have hr1 : r + 1 < N := by
          rw [hmax] at hreach
          omega
        have hcast : ((r : Int) + 1) = ((r + 1 : Nat) : Int) := by push_cast; ring
        rw [hcast]
        obtain ⟨s', msg, hs'⟩ :=
          ih { s with connPool := some { cp with getCalls := cp.getCalls + 1 } }
            { cp with getCalls := cp.getCalls + 1 } (i + 1) (r + 1)
            rfl (fun k => hfail k) hmax hdur hr1 (by omega)
        refine ⟨s', msg, ?_⟩
        rw [hs']
        have hidx : i + 1 + (N - (r + 1)) = i + (N - r) := by omega
        rw [hidx]

/-- On an always-failing pool with a nonzero elapsed-time bound and a clock
that eventually stays at or above it, the reconnect loop terminates with a
failing attempt. -/
theorem reconnectLoop_fail_time_axis (elapsed : Nat → Int) (D : Int) (i0 : Nat) :
    ∀ (fuel : Nat) (s : Session) (cp : ConnectionPool) (i : Nat) (rt : Int),
    s.connPool = some cp →
    (∀ k, ∃ m, cp.conns k = Except.error m) →
    s.reconnectCfg.MaxTimeDuration = D →
    D ≠ 0 →
    (∀ j, i0 ≤ j → D ≤ elapsed j) →
    i0 < i + fuel →
    1 ≤ fuel →
    ∃ s' n msg, reconnectLoop elapsed fuel s i rt = some (s', n, some msg) := by
  intro fuel
  induction fuel with
  | zero => intro s cp i rt _ _ _ _ _ _ h; omega
  | succ f ih =>
      intro s cp i rt hcp hfail hD hDne hgrow hi _
      obtain ⟨m, hm⟩ := hfail cp.getCalls
      have hrc := reConnect_pool_fail s cp m hcp hm
      rw [reconnectLoop, hrc]
      dsimp only
      by_cases hd : s.reconnectCfg.MaxTimeDuration ≠ 0 ∧
          s.reconnectCfg.MaxTimeDuration ≤ elapsed i
      · rw [if_pos hd]
        exact ⟨_, _, _, rfl⟩
      · have hlt : i < i0 := by
          by_contra hge
          exact hd ⟨by rw [hD]; exact hDne, by rw [hD]; exact hgrow i (by omega)⟩
        rw [if_neg hd]
        by_cases hne : s.reconnectCfg.MaxTime ≠ 0
        · rw [if_pos hne]
          by_cases hreach : s.reconnectCfg.MaxTime ≤ rt + 1
          · rw [if_pos hreach]
            exact ⟨_, _, _, rfl⟩
          · rw [if_neg hreach]
            exact ih _ { cp with getCalls := cp.getCalls + 1 } (i + 1) (rt + 1)
              rfl (fun k => hfail k) hD hDne hgrow (by omega) (by omega)
        · rw [if_neg hne]
          exact ih _ { cp with getCalls := cp.getCalls + 1 } (i + 1) rt
            rfl (fun k => hfail k) hD hDne hgrow (by omega) (by omega)

/-- On an always-failing pool with both bounds zero, the reconnect loop
never terminates: it consumes any amount of fuel. -/
theorem reconnectLoop_fail_no_limit (elapsed : Nat → Int) :
    ∀ (fuel : Nat) (s : Session) (cp : ConnectionPool) (i : Nat) (rt : Int),
    s.connPool = some cp →
    (∀ k, ∃ m, cp.conns k = Except.error m) →
    s.reconnectCfg.MaxTime = 0 →
    s.reconnectCfg.MaxTimeDuration = 0 →
    reconnectLoop elapsed fuel s i rt = none := by
  intro fuel
  induction fuel with
  | zero => intro s cp i rt _ _ _ _; rfl
  | succ f ih =>
      intro s cp i rt hcp hfail hmax hdur
      obtain ⟨m, hm⟩ := hfail cp.getCalls
      have hrc := reConnect_pool_fail s cp m hcp hm
      rw [reconnectLoop, hrc]
      dsimp only
      rw [if_neg (by simp [hdur])]
      rw [if_neg (by simp [hmax])]
      exact ih _ { cp with getCalls := cp.getCalls + 1 } (i + 1) rt
        rfl (fun k => hfail k) hmax hdur

/-- When the reconnect loop ends with a failing attempt,
`reconnectWithExecuteErr` (entered on a transport or session error) returns
the fatal `Nebula Down` error. -/
theorem reconnectWithExecuteErr_of_loop_fail (s : Session) (elapsed : Nat → Int)
    (fuel : Nat) (resp : Option ExecutionResponse) (err : Option GoError)
    (s' : Session) (n : Nat) (msg : GoError)
    (htrig : (isTransportOpt err || IsServerSessionError resp) = true)
    (hloop : reconnectLoop elapsed fuel s 0 0 = some (s', n, some msg)) :
    s.reconnectWithExecuteErr elapsed fuel resp err =
      some (s', n, some (.errorf "Nebula Down")) := by
  have hcond : ¬ (¬ isTransportOpt err ∧ ¬ IsServerSessionError resp) := by
    simp only [Bool.or_eq_true] at htrig
    rcases htrig with h | h <;> simp [h]
  rw [Session.reconnectWithExecuteErr, if_neg hcond, hloop]

/-- C5: for a session whose pool denies every reconnect attempt, the
reconnect loop terminates whenever the attempt axis is nonzero, or the
elapsed-time axis is nonzero and the clock eventually stays at or above any
bound; in either case the caller receives the fatal `Nebula Down` error.
With the time axis off and attempt bound `N > 0` the loop stops after
exactly `N` attempts.  When both axes are zero there is no limit: the loop
consumes any amount of fuel without terminating. -/
theorem c5_reconnect_loop_bounded_termination (elapsed : Nat → Int)
    (s : Session) (cp : ConnectionPool)
    (hcp : s.connPool = some cp)
    (hfail : ∀ k, ∃ m, cp.conns k = Except.error m) :
    (s.reconnectCfg.MaxTime ≠ 0 →
      ∃ fuel s' n msg, reconnectLoop elapsed fuel s 0 0 = some (s', n, some msg) ∧
        ∀ resp err, (isTransportOpt err || IsServerSessionError resp) = true →
          s.reconnectWithExecuteErr elapsed fuel resp err =
            some (s', n, some (.errorf "Nebula Down"))) ∧
    (∀ N : Nat, 0 < N → s.reconnectCfg.MaxTime = (N : Int) →
      s.reconnectCfg.MaxTimeDuration = 0 →
      ∀ fuel, N ≤ fuel →
        ∃ s' msg, reconnectLoop elapsed fuel s 0 0 = some (s', N, some msg)) ∧
    (s.reconnectCfg.MaxTimeDuration ≠ 0 →
      (∀ T : Int, ∃ i0, ∀ j, i0 ≤ j → T ≤ elapsed j) →
      ∃ fuel s' n msg, reconnectLoop elapsed fuel s 0 0 = some (s', n, some msg) ∧
        ∀ resp err, (isTransportOpt err || IsServerSessionError resp) = true →
          s.reconnectWithExecuteErr elapsed fuel resp err =
            some (s', n, some (.errorf "Nebula Down"))) ∧
    (s.reconnectCfg.MaxTime = 0 → s.reconnectCfg.MaxTimeDuration = 0 →
      ∀ fuel, reconnectLoop elapsed fuel s 0 0 = none) := by
  refine ⟨?_, ?_, ?_, ?_⟩
  · intro hne
    obtain ⟨fuel, hfuel1, hfuelb⟩ :
        ∃ fuel : Nat, 1 ≤ fuel ∧ s.reconnectCfg.MaxTime ≤ (0 : Int) + fuel := by
      refine ⟨s.reconnectCfg.MaxTime.toNat + 1, by omega, ?_⟩
      have := Int.self_le_toNat s.reconnectCfg.MaxTime
      push_cast
      omega
    obtain ⟨s', n, msg, hloop⟩ := reconnectLoop_fail_attempt_axis elapsed fuel s cp 0 0
      hcp hfail hne hfuelb hfuel1
    exact ⟨fuel, s', n, msg, hloop, fun resp err htrig =>
      reconnectWithExecuteErr_of_loop_fail s elapsed fuel resp err s' n msg htrig hloop⟩
  · intro N hN hmax hdur fuel hfuel
    have h := reconnectLoop_fail_exact_count elapsed N hN fuel s cp 0 0
      hcp hfail hmax hdur hN (by omega)
    simpa using h
  · intro hDne hgrow
    obtain ⟨i0, hi0⟩ := hgrow s.reconnectCfg.MaxTimeDuration
    obtain ⟨s', n, msg, hloop⟩ := reconnectLoop_fail_time_axis elapsed
      s.reconnectCfg.MaxTimeDuration i0 (i0 + 1) s cp 0 0
      hcp hfail rfl hDne hi0 (by omega) (by omega)
    exact ⟨i0 + 1, s', n, msg, hloop, fun resp err htrig =>
      reconnectWithExecuteErr_of_loop_fail s elapsed (i0 + 1) resp err s' n msg htrig hloop⟩
  · intro hmax hdur fuel
    exact reconnectLoop_fail_no_limit elapsed fuel s cp 0 0 hcp hfail hmax hdur

/-- A concrete session whose pool refuses every connection, with attempt
bound 3 and the time axis off. -/
def exFailSession : Session :=
  { sessionID := 9, connection := some ⟨0⟩,
    connPool := some ⟨fun _ => .error "connection refused", 0, 0⟩, sessPool := none,
    returnedAt := 0, tz := tzUTC, reconnectCfg := ⟨3, 0, 5⟩,
    retryCfg := ⟨1, 0⟩, signOutCalls := 0, closeCalls := 0 }

/-- The same failing session with both reconnect bounds zero. -/
def exFailSessionNoLimit : Session :=
  { exFailSession with reconnectCfg := ⟨0, 0, 5⟩ }

/-- Witness for C5 at concrete inputs: with attempt bound 3 the loop stops
after exactly 3 failing attempts, and with both bounds zero it consumes any
fuel (checked at fuel 7) without terminating. -/
theorem c5_witness :
    (exFailSession.connPool =
        some ⟨fun _ => .error "connection refused", 0, 0⟩) ∧
    (∃ s' msg, reconnectLoop (fun _ => 0) 5 exFailSession 0 0 =
        some (s', 3, some msg)) ∧
    reconnectLoop (fun _ => 0) 7 exFailSessionNoLimit 0 0 = none :=
  ⟨rfl,
   (c5_reconnect_loop_bounded_termination (fun _ => 0) exFailSession
      ⟨fun _ => .error "connection refused", 0, 0⟩ rfl
      (fun _ => ⟨"connection refused", rfl⟩)).2.1 3 (by decide) (by decide) (by decide)
      5 (by decide),
   (c5_reconnect_loop_bounded_termination (fun _ => 0) exFailSessionNoLimit
      ⟨fun _ => .error "connection refused", 0, 0⟩ rfl
      (fun _ => ⟨"connection refused", rfl⟩)).2.2.2 (by decide) (by decide) 7⟩

/-- C9: `Release` is idempotent — a second `Release` is a no-op on the
session state (in particular it issues no further remote sign-out and does
not touch the transport; `Release` itself returns no error in Go, having no
error return at all) — and after a `Release` the connection reference is
nil, so every subsequent execute operation on either path fails immediately
with the distinct released-session error and makes zero remote calls. -/
theorem c9_release_idempotent_then_blocked (s : Session) :
    Session.Release (Session.Release s) = Session.Release s ∧
    (Session.Release (Session.Release s)).signOutCalls =
      (Session.Release s).signOutCalls ∧
    (Session.Release s).connection = none ∧
    (∀ (att : Nat → Outcome) (elapsed : Nat → Int) (fuelRetry fuelRecon : Nat)
        (params : HostMap),
      (Session.Release s).ExecuteWithParameter att elapsed fuelRetry fuelRecon params =
        some ⟨Session.Release s, none,
          some (.errorf "failed to execute: Session has been released"), 0, 0, 0, 0, 0⟩) ∧
    (∀ (att : Nat → JOutcome) (elapsed : Nat → Int) (fuelRetry fuelRecon : Nat)
        (params : HostMap),
      (Session.Release s).ExecuteJsonWithParameter att elapsed fuelRetry fuelRecon params =
        some ⟨Session.Release s, none,
          some (.errorf "failed to execute: Session has been released"), 0, 0, 0, 0, 0⟩) := by
  have hconn : (Session.Release s).connection = none := by
    rw [Session.Release]
    cases hc : s.connection with
    | none => exact hc
    | some c => rfl
  have hidem : Session.Release (Session.Release s) = Session.Release s := by
    conv_lhs => rw [Session.Release]
    rw [hconn]
  refine ⟨hidem, by rw [hidem], hconn, ?_, ?_⟩
  · intro att elapsed fuelRetry fuelRecon params
    rw [Session.ExecuteWithParameter, hconn]
  · intro att elapsed fuelRetry fuelRecon params
    rw [Session.ExecuteJsonWithParameter, hconn]

/-- C10: on a session whose connection-pool and session-pool references are
both nil, `reConnect` falls through both arms and returns nil while leaving
the whole session — connection, session identity, returned-at timestamp —
untouched, so a triggered reconnect loop reports success after a single
iteration (one `reConnect` attempt, final error nil, state unchanged) even
though the broken connection was never replaced. -/
theorem c10_poolless_reconnect_vacuous_success (s : Session)
    (hcp : s.connPool = none) (hsp : s.sessPool = none) :
    s.reConnect = (s, none) ∧
    (∀ (elapsed : Nat → Int) (fuel : Nat),
      reconnectLoop elapsed (fuel + 1) s 0 0 = some (s, 1, none)) ∧
    (∀ (elapsed : Nat → Int) (fuel : Nat) (resp : Option ExecutionResponse)
        (err : Option GoError),
      (isTransportOpt err || IsServerSessionError resp) = true →
      s.reconnectWithExecuteErr elapsed (fuel + 1) resp err = some (s, 1, none)) := by
  have hrc : s.reConnect = (s, none) := by
    rw [Session.reConnect, hcp, hsp]
  have hloop : ∀ (elapsed : Nat → Int) (fuel : Nat),
      reconnectLoop elapsed (fuel + 1) s 0 0 = some (s, 1, none) := by
    intro elapsed fuel
    rw [reconnectLoop, hrc]
  refine ⟨hrc, hloop, ?_⟩
  intro elapsed fuel resp err htrig
  have hcond : ¬ (¬ isTransportOpt err ∧ ¬ IsServerSessionError resp) := by
    simp only [Bool.or_eq_true] at htrig
    rcases htrig with h | h <;> simp [h]
  rw [Session.reconnectWithExecuteErr, if_neg hcond, hloop]

/-- Witness for C10 at a concrete pool-less session and a session-invalid
response: the reconnect loop reports success after one iteration with the
session unchanged. -/
theorem c10_witness :
    exSession.connPool = none ∧ exSession.sessPool = none ∧
    exSession.reConnect = (exSession, none) ∧
    reconnectLoop (fun _ => 0) 3 exSession 0 0 = some (exSession, 1, none) ∧
    exSession.reconnectWithExecuteErr (fun _ => 0) 3
        (some ⟨.E_SESSION_INVALID, "session not found"⟩) none =
      some (exSession, 1, none) :=
  ⟨rfl, rfl,
   (c10_poolless_reconnect_vacuous_success exSession rfl rfl).1,
   (c10_poolless_reconnect_vacuous_success exSession rfl rfl).2.1 (fun _ => 0) 2,
   (c10_poolless_reconnect_vacuous_success exSession rfl rfl).2.2 (fun _ => 0) 2
     (some ⟨.E_SESSION_INVALID, "session not found"⟩) none (by decide)⟩

/-- An unconvertible host value converts with a non-nil error. -/
theorem value2Nvalue_err_of_not_convertible (x : HostValue)
    (h : isConvertible x = false) : ∃ e, (value2Nvalue x).2 = some e := by
  have hiff := value2Nvalue_none_iff x
  cases he : (value2Nvalue x).2 with
  | none => rw [he] at hiff; simp [h] at hiff
  | some e => exact ⟨e, rfl⟩

/-- C6: a float64 or float32 host value whose exact rational value has zero
fractional part (denominator 1) converts to the integer wire variant
carrying its truncated value — never the float variant — while a value with
a nonzero fractional part converts to the double wire variant (the float32
case carrying the same widened rational). -/
theorem c6_float_integral_collapse (q : ℚ) :
    (q.den = 1 →
      value2Nvalue (.hfloat64 q) = (nvEmpty.withIVal (goInt64OfFloat q), none) ∧
      value2Nvalue (.hfloat32 q) = (nvEmpty.withIVal (goInt64OfFloat q), none) ∧
      goInt64OfFloat q = q.num) ∧
    (q.den ≠ 1 →
      value2Nvalue (.hfloat64 q) = (nvEmpty.withFVal q, none) ∧
      value2Nvalue (.hfloat32 q) = (nvEmpty.withFVal q, none)) := by
  constructor
  · intro h
    have hcast : q = ((goInt64OfFloat q : Int) : ℚ) := (goInt64OfFloat_cast_eq_iff q).mpr h
    refine ⟨?_, ?_, ?_⟩
    · simp only [value2Nvalue, if_pos hcast]
    · simp only [value2Nvalue, if_pos hcast]
    · simp [goInt64OfFloat, h]
  · intro h
    have hcast : ¬ (q = ((goInt64OfFloat q : Int) : ℚ)) := fun hc =>
      h ((goInt64OfFloat_cast_eq_iff q).mp hc)
    constructor <;> simp only [value2Nvalue, if_neg hcast]

/-- Witness for C6 at concrete floats: `3.0` collapses to the integer
variant 3, and `2.5` becomes the double variant. -/
theorem c6_witness :
    ((3 : ℚ).den = 1 ∧
      value2Nvalue (.hfloat64 3) = (nvEmpty.withIVal (goInt64OfFloat 3), none)) ∧
    ((mkRat 5 2).den ≠ 1 ∧
      value2Nvalue (.hfloat32 (mkRat 5 2)) = (nvEmpty.withFVal (mkRat 5 2), none)) :=
  ⟨⟨by decide, ((c6_float_integral_collapse 3).1 (by decide)).1⟩,
   ⟨by decide, ((c6_float_integral_collapse (mkRat 5 2)).2 (by decide)).2⟩⟩

/-- C7: a host value outside the supported set converts to a
`ConversionError` naming the offending type, and a list or map containing
an unconvertible value fails as a whole at its first failing element — the
element's own error is returned, the recursion returns no list/map
(`Except.error`), and the enclosing wire value keeps a nil list/map field,
so no partial result is retained. -/
theorem c7_unsupported_named_and_first_failure_aborts :
    (∀ tyName, value2Nvalue (.hother tyName) =
      (nvEmpty, some (.errorf (unsupportedMsg tyName)))) ∧
    (∀ (pre : List HostValue) (bad : HostValue) (rest : List HostValue),
      (∀ x ∈ pre, isConvertible x = true) →
      isConvertible bad = false →
      ∃ e, (value2Nvalue bad).2 = some e ∧
        slice2Nlist (HostList.ofList (pre ++ bad :: rest)) = .error e ∧
        value2Nvalue (.hlist (HostList.ofList (pre ++ bad :: rest))) =
          (nvEmpty.withLVal none, some e)) ∧
    (∀ (preKV : List (String × HostValue)) (k : String) (bad : HostValue)
        (restKV : List (String × HostValue)),
      (∀ x ∈ preKV, isConvertible x.2 = true) →
      isConvertible bad = false →
      ∃ e, (value2Nvalue bad).2 = some e ∧
        parseParams (HostMap.ofList (preKV ++ (k, bad) :: restKV)) = .error e ∧
        value2Nvalue (.hmap (HostMap.ofList (preKV ++ (k, bad) :: restKV))) =
          (nvEmpty.withMVal none, some e)) := by
  refine ⟨fun tyName => rfl, ?_, ?_⟩
  · intro pre bad rest hpre hbad
    obtain ⟨e, he⟩ := value2Nvalue_err_of_not_convertible bad hbad
    refine ⟨e, he, ?_⟩
    have hslice : slice2Nlist (HostList.ofList (pre ++ bad :: rest)) = .error e := by
      induction pre with
      | nil =>
          simp only [List.nil_append, HostList.ofList, slice2Nlist]
          rcases hv : value2Nvalue bad with ⟨nv, eo⟩
          rw [hv] at he
          simp at he
          subst he
          rfl
      | cons x pre ih =>
          have hx : isConvertible x = true := hpre x (by simp)
          obtain ⟨nv, hnv⟩ := value2Nvalue_of_convertible x hx
          have ih2 := ih (fun y hy => hpre y (by simp [hy]))
          simp only [List.cons_append, HostList.ofList, slice2Nlist, hnv]
          rw [show HostList.ofList (pre.append (bad :: rest)) =
              HostList.ofList (pre ++ bad :: rest) from rfl, ih2]
    refine ⟨hslice, ?_⟩
    simp only [value2Nvalue, hslice]
  · intro preKV k bad restKV hpre hbad
    obtain ⟨e, he⟩ := value2Nvalue_err_of_not_convertible bad hbad
    refine ⟨e, he, ?_⟩
    have hmap : parseParams (HostMap.ofList (preKV ++ (k, bad) :: restKV)) = .error e := by
      induction preKV with
      | nil =>
          simp only [List.nil_append, HostMap.ofList, parseParams]
          rcases hv : value2Nvalue bad with ⟨nv, eo⟩
          rw [hv] at he
          simp at he
          subst he
          rfl
      | cons kv preKV ih =>
          have hx : isConvertible kv.2 = true := hpre kv (by simp)
          obtain ⟨nv, hnv⟩ := value2Nvalue_of_convertible kv.2 hx
          have ih2 := ih (fun y hy => hpre y (by simp [hy]))
          rcases kv with ⟨k1, v1⟩
          simp only [List.cons_append, HostMap.ofList, parseParams, hnv]
          rw [show HostMap.ofList (preKV.append ((k, bad) :: restKV)) =
              HostMap.ofList (preKV ++ (k, bad) :: restKV) from rfl, ih2]
    refine ⟨hmap, ?_⟩
    simp only [value2Nvalue, hmap]

/-- Witness for C7 at a concrete unsupported struct inside a list and a
map: conversion aborts with the error naming the offending type. -/
theorem c7_witness :
    ((∀ x ∈ [HostValue.hbool true], isConvertible x = true) ∧
      isConvertible (.hother "main.customStruct") = false) ∧
    (∃ e, (value2Nvalue (.hother "main.customStruct")).2 = some e ∧
      slice2Nlist (HostList.ofList
        ([HostValue.hbool true] ++ .hother "main.customStruct" :: [.hint 7])) = .error e ∧
      value2Nvalue (.hlist (HostList.ofList
        ([HostValue.hbool true] ++ .hother "main.customStruct" :: [.hint 7]))) =
        (nvEmpty.withLVal none, some e)) ∧
    (∃ e, (value2Nvalue (.hother "main.customStruct")).2 = some e ∧
      parseParams (HostMap.ofList
        ([("a", HostValue.hbool true)] ++ ("b", .hother "main.customStruct") :: [])) = .error e ∧
      value2Nvalue (.hmap (HostMap.ofList
        ([("a", HostValue.hbool true)] ++ ("b", .hother "main.customStruct") :: []))) =
        (nvEmpty.withMVal none, some e)) :=
  ⟨⟨by decide, by decide⟩,
   c7_unsupported_named_and_first_failure_aborts.2.1 [.hbool true]
     (.hother "main.customStruct") [.hint 7] (by decide) (by decide),
   c7_unsupported_named_and_first_failure_aborts.2.2 [("a", .hbool true)] "b"
     (.hother "main.customStruct") [] (by decide) (by decide)⟩

/-- C8: the codec is a total function — it returns a wire value with nil
error exactly on convertible inputs and a `ConversionError` otherwise — and
it is a pass-through on values already in wire form: an embedded
`nebula.Value` is returned unchanged, and each wire temporal/geospatial
host variant is wrapped into the tagged union unchanged. -/
theorem c8_codec_total_and_passthrough :
    (∀ hv : HostValue, ((value2Nvalue hv).2 = none ↔ isConvertible hv = true)) ∧
    (∀ v : NValue, value2Nvalue (.hnvalue v) = (v, none)) ∧
    (∀ d : NDate, value2Nvalue (.hdate d) = (nvEmpty.withDVal d, none)) ∧
    (∀ dt : NDateTime, value2Nvalue (.hdatetime dt) = (nvEmpty.withDtVal dt, none)) ∧
    (∀ du : NDuration, value2Nvalue (.hduration du) = (nvEmpty.withDuVal du, none)) ∧
    (∀ t : NTime, value2Nvalue (.htime t) = (nvEmpty.withTVal t, none)) ∧
    (∀ gg : NGeography, value2Nvalue (.hgeography gg) = (nvEmpty.withGgVal gg, none)) :=
  ⟨value2Nvalue_none_iff, fun _ => rfl, fun _ => rfl, fun _ => rfl,
   fun _ => rfl, fun _ => rfl, fun _ => rfl⟩

end NebulaGo
